import Mathlib

/-!
Verification of the dnmap policy evaluation engine (pkg/graph) against its
specification.  The Go source is shallowly embedded: Go maps become
association lists (with Go's zero-value lookup semantics), slices become
lists, pointers become Option, and the imperative builder loops become
explicit list combinators that preserve the source's iteration order.
Go randomizes map iteration order, so every function that ranges over the
workloadsByNS map is parameterized by an explicit key order, written sigma
below; the canonical order is first-insertion order of the namespaces.
-/

namespace Dnmap

/-- Go map[string]string, embedded as an association list (unique keys in
practice; lookup takes the first binding, matching a Go map). -/
abbrev Labels := List (String × String)

/-- Go map indexing `m[k]` with the string zero value for a missing key. -/
def mapGetD (m : Labels) (k : String) : String :=
  match m.find? (fun kv => kv.1 == k) with
  | some kv => kv.2
  | none => ""

/-- Go comma-ok map lookup `_, ok := m[k]`. -/
def mapHas (m : Labels) (k : String) : Bool :=
  (m.find? (fun kv => kv.1 == k)).isSome

/-- k8s.Port (pkg/k8s/client.go): a container port exposed by a workload.
corev1.Protocol is a string type; ContainerPort is int32, embedded as Int. -/
structure Port where
  name : String
  containerPort : Int
  protocol : String
deriving Repr, DecidableEq

/-- k8s.Workload (pkg/k8s/client.go).  The Go field Namespace is spelled
ns here because namespace is a Lean keyword; Type (a string type) is kind. -/
structure Workload where
  name : String
  ns : String
  kind : String
  labels : Labels
  ports : List Port
deriving Repr, DecidableEq

/-- metav1.LabelSelectorOperator. -/
inductive LabelSelectorOperator where
  | opIn
  | opNotIn
  | opExists
  | opDoesNotExist
deriving Repr, DecidableEq

/-- metav1.LabelSelectorRequirement. -/
structure LabelSelectorRequirement where
  key : String
  operator : LabelSelectorOperator
  values : List String
deriving Repr, DecidableEq

/-- metav1.LabelSelector. -/
structure LabelSelector where
  matchLabels : Labels
  matchExpressions : List LabelSelectorRequirement
deriving Repr, DecidableEq

/-- intstr.IntOrString: Type 0 carries IntVal (int32), otherwise StrVal. -/
inductive IntOrString where
  | int (v : Int)
  | str (s : String)
deriving Repr, DecidableEq

/-- networkingv1.NetworkPolicyPort: both fields are pointers in Go. -/
structure NetworkPolicyPort where
  protocol : Option String
  port : Option IntOrString
deriving Repr, DecidableEq

/-- networkingv1.IPBlock (only the CIDR is ever read by the engine). -/
structure IPBlock where
  cidr : String
deriving Repr, DecidableEq

/-- networkingv1.NetworkPolicyPeer: all three fields are pointers in Go. -/
structure NetworkPolicyPeer where
  podSelector : Option LabelSelector
  namespaceSelector : Option LabelSelector
  ipBlock : Option IPBlock
deriving Repr, DecidableEq

/-- networkingv1.NetworkPolicyIngressRule.  The Go field From is spelled
fromPeers because from is a Lean keyword. -/
structure NetworkPolicyIngressRule where
  fromPeers : List NetworkPolicyPeer
  ports : List NetworkPolicyPort
deriving Repr, DecidableEq

/-- networkingv1.NetworkPolicy restricted to the fields the engine reads:
object meta (name, namespace) and spec (pod selector, ingress rules). -/
structure NetworkPolicy where
  name : String
  ns : String
  podSelector : LabelSelector
  ingress : List NetworkPolicyIngressRule
deriving Repr, DecidableEq

/-- portMatches (builder, part_002 lines 1124-1146): whether a workload
port satisfies a policy port constraint.  The early returns of the Go
function become a conjunction. -/
def portMatches (wPort : Port) (pPort : NetworkPolicyPort) : Bool :=
  (match pPort.protocol with
   | some pr => pr == wPort.protocol
   | none => true) &&
  (match pPort.port with
   | some (IntOrString.int v) => v == wPort.containerPort
   | some (IntOrString.str s) => s == wPort.name
   | none => true)

/-- getAllowedPorts (part_002 lines 1105-1122): the inner loop with break
on the first matching constraint is a filter by an any. -/
def getAllowedPorts (w : Workload) (policyPorts : List NetworkPolicyPort) : List Port :=
  if policyPorts.isEmpty then w.ports
  else w.ports.filter (fun wPort => policyPorts.any (fun pPort => portMatches wPort pPort))

/-- matchesSelector (part_002 lines 1055-1103).  Go map indexing inside
returns "" for a missing key, mirrored by mapGetD/mapHas. -/
def matchesSelector (labels : Labels) (selector : LabelSelector) : Bool :=
  selector.matchLabels.all (fun kv => mapGetD labels kv.1 == kv.2) &&
  selector.matchExpressions.all (fun expr =>
    let hasLabel := mapHas labels expr.key
    let labelValue := mapGetD labels expr.key
    match expr.operator with
    | LabelSelectorOperator.opIn => hasLabel && expr.values.any (fun v => labelValue == v)
    | LabelSelectorOperator.opNotIn => !hasLabel || expr.values.all (fun v => !(labelValue == v))
    | LabelSelectorOperator.opExists => hasLabel
    | LabelSelectorOperator.opDoesNotExist => !hasLabel)

/-- namespaceMatchesSelector (part_002 lines 1005-1053): textually the
same algorithm as matchesSelector, duplicated in the source. -/
def namespaceMatchesSelector (nsLabels : Labels) (selector : LabelSelector) : Bool :=
  selector.matchLabels.all (fun kv => mapGetD nsLabels kv.1 == kv.2) &&
  selector.matchExpressions.all (fun expr =>
    let hasLabel := mapHas nsLabels expr.key
    let labelValue := mapGetD nsLabels expr.key
    match expr.operator with
    | LabelSelectorOperator.opIn => hasLabel && expr.values.any (fun v => labelValue == v)
    | LabelSelectorOperator.opNotIn => !hasLabel || expr.values.all (fun v => !(labelValue == v))
    | LabelSelectorOperator.opExists => hasLabel
    | LabelSelectorOperator.opDoesNotExist => !hasLabel)

/-- Modelled from the spec: the WarningType declaration is missing from the
checked-in graph model (src/pkg/graph/model.go is an older revision), but the
spec fixes exactly two warning kinds, *unrestricted-ports* and
*unrestricted-source*, and the builder in part_002 refers to them as
WarningNoPorts and WarningNoSelector. -/
inductive WarningType where
  | noPorts
  | noSelector
deriving Repr, DecidableEq

/-- graph.NodeType (pkg/graph/model.go). -/
inductive NodeType where
  | workload
  | port
deriving Repr, DecidableEq

/-- graph.Node (pkg/graph/model.go), extended with the accumulated warning
set.  Modelled from the spec: the Warnings field is absent from the old
model.go revision in src but is written by the builder in part_002 and
described in the spec's Node data model ("accumulated warning set"). -/
structure Node where
  id : String
  label : String
  type : NodeType
  ns : String
  kind : String
  parent : String
  port : Int
  protocol : String
  metadata : Labels
  warnings : List WarningType
deriving Repr, DecidableEq

/-- graph.Edge (pkg/graph/model.go) plus the PolicyYAML field the part_002
builder writes (raw policy document attached for provenance). -/
structure Edge where
  id : String
  source : String
  target : String
  label : String
  rule : String
  policy : String
  policyYAML : String
  metadata : Labels
deriving Repr, DecidableEq

/-- Modelled from the spec: the WarningDetail declaration is missing from the
old model.go revision in src; its fields are fixed by the spec ("workload id,
workload name, namespace, policy provenance, warning kind") and by the field
names used in part_002 and cmd/dnmap/main.go. -/
structure WarningDetail where
  workloadID : String
  workloadName : String
  ns : String
  policyName : String
  warningType : WarningType
deriving Repr, DecidableEq

/-- graph.NetworkGraph with the WarningDetails list written by the part_002
builder. -/
structure NetworkGraph where
  nodes : List Node
  edges : List Edge
  warningDetails : List WarningDetail
deriving Repr, DecidableEq

/-- The digit loop of itoa (pkg/graph/model.go) with an explicit fuel
argument (the loop runs at most n iterations; fuel n is always enough
since n shrinks by a factor of ten per step): digit characters of n, most
significant first, [] when n = 0. -/
def natDigitsAux : Nat → Nat → List Char
  | 0, _ => []
  | _ + 1, 0 => []
  | fuel + 1, n + 1 => natDigitsAux fuel ((n + 1) / 10) ++ [Char.ofNat (48 + (n + 1) % 10)]

/-- The decimal digit characters of n, most significant first; [] for 0. -/
def natDigits (n : Nat) : List Char := natDigitsAux n n

/-- itoa (pkg/graph/model.go): int32-to-decimal-string without strconv.
The negative branch of the source recurses once; it is unrolled here.  (On
the int32 minimum the Go original would overflow on negation; the engine
never produces that value and the embedding uses unbounded Int.) -/
def itoa (n : Int) : String :=
  if n = 0 then "0"
  else if n < 0 then "-" ++ String.mk (natDigits (-n).toNat)
  else String.mk (natDigits n.toNat)

/-- WorkloadID (pkg/graph/model.go). -/
def WorkloadID (ns name : String) : String := ns ++ "/" ++ name

/-- PortID (pkg/graph/model.go). -/
def PortID (workloadID : String) (port : Int) (protocol : String) : String :=
  workloadID ++ ":" ++ protocol ++ "/" ++ itoa port

/-- The workload identity key of a workload record. -/
def widW (w : Workload) : String := WorkloadID w.ns w.name

/-- NewWorkloadNode (pkg/graph/model.go); the warning set starts empty. -/
def NewWorkloadNode (w : Workload) : Node :=
  { id := WorkloadID w.ns w.name
    label := w.name
    type := NodeType.workload
    ns := w.ns
    kind := w.kind
    parent := ""
    port := 0
    protocol := ""
    metadata := w.labels
    warnings := [] }

/-- The display protocol of a port: the `if protocol == "" { protocol =
"TCP" }` defaulting used by NewPortNode and by the edge constructors. -/
def effectiveProtocol (p : Port) : String :=
  if p.protocol = "" then "TCP" else p.protocol

/-- NewPortNode (pkg/graph/model.go): protocol defaults to TCP for display,
the label falls back to the port number when the port has no name. -/
def NewPortNode (workloadID : String) (p : Port) : Node :=
  let protocol := effectiveProtocol p
  let label := if p.name = "" then itoa p.containerPort else p.name
  { id := PortID workloadID p.containerPort protocol
    label := label
    type := NodeType.port
    ns := ""
    kind := ""
    parent := workloadID
    port := p.containerPort
    protocol := protocol
    metadata := []
    warnings := [] }

/-- The namespace bucket of the workloadsByNS map, built by appending each
workload to workloadsByNS[w.Namespace] in input order (Build, part_002
lines 406-423): the bucket for ns is the input sublist with that namespace,
in input order. -/
def bucket (workloads : List Workload) (ns : String) : List Workload :=
  workloads.filter (fun w => w.ns == ns)

/-- First-occurrence deduplication of a namespace key list (helper for the
canonical iteration order of the workloadsByNS map keys). -/
def dedupKeysAux : List String → List String → List String
  | [], _ => []
  | k :: rest, seen =>
    if k ∈ seen then dedupKeysAux rest seen else k :: dedupKeysAux rest (k :: seen)

/-- The key set of workloadsByNS in first-insertion order.  Go randomizes
map iteration order; this is the canonical order, and the functions that
range over the map take the order as an explicit parameter sigma. -/
def nsKeys (workloads : List Workload) : List String :=
  dedupKeysAux (workloads.map (fun w => w.ns)) []

/-- The `seen`-set deduplication by workload ID threaded through the source
loops of findSourceWorkloads / findIstioSourceWorkloads: keep the first
workload for each ID, in iteration order. -/
def dedupByIDAux : List Workload → List String → List Workload
  | [], _ => []
  | w :: rest, seen =>
    if widW w ∈ seen then dedupByIDAux rest seen
    else w :: dedupByIDAux rest (widW w :: seen)

/-- dedupByIDAux starting from an empty seen set. -/
def dedupByID (l : List Workload) : List Workload := dedupByIDAux l []

/-- The builder's namespaceLabels map (Builder.WithNamespaceLabels); a
namespace with no record looks up as a nil map, i.e. the empty label set. -/
def lookupNSLabels (m : List (String × Labels)) (ns : String) : Labels :=
  match m.find? (fun kv => kv.1 == ns) with
  | some kv => kv.2
  | none => []

/-- getNamespacesForPeer (part_002 lines 978-1003).  sigma is the iteration
order of the workloadsByNS keys (Go map range order). -/
def getNamespacesForPeer (nsLabelsMap : List (String × Labels)) (policyNamespace : String)
    (peer : NetworkPolicyPeer) (sigma : List String) : List String :=
  match peer.namespaceSelector with
  | none => [policyNamespace]
  | some sel =>
    if sel.matchLabels.length = 0 ∧ sel.matchExpressions.length = 0 then sigma
    else sigma.filter (fun ns => namespaceMatchesSelector (lookupNSLabels nsLabelsMap ns) sel)

/-- findMatchingWorkloads (part_002 lines 920-931). -/
def findMatchingWorkloads (ns : String) (selector : LabelSelector)
    (workloads : List Workload) : List Workload :=
  (bucket workloads ns).filter (fun w => matchesSelector w.labels selector)

/-- findSourceWorkloads (part_002 lines 933-976): the imperative loops with
the threaded `seen` set are the first-occurrence dedup of the flattened
iteration. -/
def findSourceWorkloads (nsLabelsMap : List (String × Labels)) (policyNamespace : String)
    (fromPeers : List NetworkPolicyPeer) (workloads : List Workload)
    (sigma : List String) : List Workload :=
  if fromPeers.isEmpty then dedupByID (sigma.flatMap (bucket workloads))
  else
    dedupByID (fromPeers.flatMap (fun peer =>
      (getNamespacesForPeer nsLabelsMap policyNamespace peer sigma).flatMap (fun ns =>
        (bucket workloads ns).filter (fun w =>
          match peer.podSelector with
          | some ps => matchesSelector w.labels ps
          | none => true))))

/-- labelsMatch (part_002 lines 750-758). -/
def labelsMatch (workloadLabels requiredLabels : Labels) : Bool :=
  requiredLabels.all (fun kv => mapGetD workloadLabels kv.1 == kv.2)

/-- findWorkloadsByLabels (part_002 lines 737-748). -/
def findWorkloadsByLabels (ns : String) (labels : Labels)
    (workloads : List Workload) : List Workload :=
  (bucket workloads ns).filter (fun w => labelsMatch w.labels labels)

/-- Istio Source (security/v1beta1): only principals and namespaces are read
by the engine. -/
structure IstioSource where
  principals : List String
  namespaces : List String
deriving Repr, DecidableEq

/-- An element of an Istio rule's from-list (Rule_From); both the element
pointer and its Source pointer are nillable in Go. -/
structure IstioFromEntry where
  source : Option IstioSource
deriving Repr, DecidableEq

/-- Istio Operation: ports/methods/paths as opaque strings. -/
structure IstioOperation where
  ports : List String
  methods : List String
  paths : List String
deriving Repr, DecidableEq

/-- An element of an Istio rule's to-list (Rule_To). -/
structure IstioToEntry where
  operation : Option IstioOperation
deriving Repr, DecidableEq

/-- Istio Rule: from- and to-lists whose elements are nillable pointers. -/
structure IstioRule where
  fromList : List (Option IstioFromEntry)
  toList : List (Option IstioToEntry)
deriving Repr, DecidableEq

/-- Istio WorkloadSelector: the engine only reads MatchLabels. -/
structure IstioSelector where
  matchLabels : Labels
deriving Repr, DecidableEq

/-- Istio AuthorizationPolicy spec: selector, rules, action (the engine
only stringifies the action for edge metadata). -/
structure IstioAuthSpec where
  selector : Option IstioSelector
  rules : List (Option IstioRule)
  action : String
deriving Repr, DecidableEq

/-- k8s.IstioAuthorizationPolicy: object meta plus spec. -/
structure IstioAuthorizationPolicy where
  name : String
  ns : String
  spec : IstioAuthSpec
deriving Repr, DecidableEq

/-- k8s.PolicyType (pkg/k8s/client.go). -/
inductive PolicyType where
  | k8sNetworkPolicy
  | istioAuthorizationPolicy
deriving Repr, DecidableEq

/-- k8s.Policy (pkg/k8s/client.go): the unified policy record. -/
structure Policy where
  name : String
  ns : String
  type : PolicyType
  k8sNetworkPolicy : Option NetworkPolicy
  istioAuthPolicy : Option IstioAuthorizationPolicy
deriving Repr, DecidableEq

/-- extractNamespaceFromPrincipal's loop (part_002 lines 835-844): the
first path segment directly after a literal "ns" segment, or "". -/
def extractFromParts : List String → String
  | [] => ""
  | "ns" :: next :: _ => next
  | _ :: rest => extractFromParts rest

/-- Helper for goSplitSlash: split a character list on '/', accumulating
the current field in reverse. -/
def splitOnSlashAux : List Char → List Char → List String
  | [], acc => [String.mk acc.reverse]
  | c :: rest, acc =>
    if c = '/' then String.mk acc.reverse :: splitOnSlashAux rest []
    else splitOnSlashAux rest (c :: acc)

/-- Go's strings.Split(s, "/"): every field between consecutive slashes,
empty fields included; [""] for the empty string. -/
def goSplitSlash (s : String) : List String := splitOnSlashAux s.data []

/-- extractNamespaceFromPrincipal (part_002 lines 834-844). -/
def extractNamespaceFromPrincipal (principal : String) : String :=
  extractFromParts (goSplitSlash principal)

/-- The behavior of fmt.Sscanf(s, "%d", &port) with the error ignored:
skip leading whitespace, read an optional sign and a digit run; on a parse
failure the target keeps its zero value. -/
def scanInt (s : String) : Int :=
  let cs := s.toList.dropWhile (fun c => c.isWhitespace)
  let sign : Int := match cs with
    | '-' :: _ => -1
    | _ => 1
  let cs2 := match cs with
    | '-' :: rest => rest
    | '+' :: rest => rest
    | _ => cs
  let digits := cs2.takeWhile (fun c => c.isDigit)
  if digits.isEmpty then 0
  else sign * (digits.foldl (fun acc c => acc * 10 + ((c.toNat : Int) - 48)) 0)

/-- First-occurrence deduplication of port numbers (the seen map of
getIstioAllowedPorts). -/
def dedupIntsAux : List Int → List Int → List Int
  | [], _ => []
  | p :: rest, seen =>
    if p ∈ seen then dedupIntsAux rest seen else p :: dedupIntsAux rest (p :: seen)

/-- getIstioAllowedPorts (part_002 lines 846-866): collect the parsed port
strings of every to-operation, keep the positive ones, first occurrence
each. -/
def getIstioAllowedPorts (toList : List (Option IstioToEntry)) : List Int :=
  dedupIntsAux
    ((toList.flatMap (fun t =>
      match t with
      | none => []
      | some te =>
        match te.operation with
        | none => []
        | some op => op.ports.map scanInt)).filter (fun p => p > 0)) []

/-- findIstioSourceWorkloads (part_002 lines 760-832); sigma is the
iteration order of the workloadsByNS keys. -/
def findIstioSourceWorkloads (fromList : List (Option IstioFromEntry))
    (workloads : List Workload) (sigma : List String) : List Workload :=
  if fromList.isEmpty then dedupByID (sigma.flatMap (bucket workloads))
  else
    dedupByID (fromList.flatMap (fun f =>
      match f with
      | none => []
      | some fe =>
        match fe.source with
        | none => []
        | some source =>
          (if source.principals.isEmpty then []
           else source.principals.flatMap (fun principal =>
             let ns := extractNamespaceFromPrincipal principal
             if ns = "" then [] else bucket workloads ns)) ++
          (if source.namespaces.isEmpty then []
           else source.namespaces.flatMap (bucket workloads)) ++
          (if source.principals.isEmpty ∧ source.namespaces.isEmpty then
             sigma.flatMap (bucket workloads)
           else [])))

/-- Insertion into a key-sorted association list (for Go's fmt, which
prints maps with keys in sorted order). -/
def insertSorted (kv : String × String) : List (String × String) → List (String × String)
  | [] => [kv]
  | x :: rest => if kv.1 ≤ x.1 then kv :: x :: rest else x :: insertSorted kv rest

/-- Key-sort of an association list (insertion sort; stable, which matches
fmt's sorted key order for the unique-key maps the engine handles). -/
def sortByKey (l : Labels) : Labels := l.foldr insertSorted []

/-- Go fmt %v of a map[string]string: "map[k1:v1 k2:v2]" with keys sorted. -/
def goFmtMap (m : Labels) : String :=
  "map[" ++ String.intercalate " " ((sortByKey m).map (fun kv => kv.1 ++ ":" ++ kv.2)) ++ "]"

/-- Go fmt %v of a []string: "[a b c]". -/
def goFmtStrSlice (l : List String) : String :=
  "[" ++ String.intercalate " " l ++ "]"

/-- formatPeer (part_002 lines 1177-1208). -/
def formatPeer (peer : NetworkPolicyPeer) : String :=
  let parts : List String :=
    (match peer.podSelector with
     | some ps =>
       if ps.matchLabels.length = 0 ∧ ps.matchExpressions.length = 0 then ["pods: all"]
       else ["pods: " ++ goFmtMap ps.matchLabels]
     | none => []) ++
    (match peer.namespaceSelector with
     | some nsSel =>
       if nsSel.matchLabels.length = 0 ∧ nsSel.matchExpressions.length = 0 then ["namespaces: all"]
       else ["namespaces: " ++ goFmtMap nsSel.matchLabels]
     | none =>
       match peer.podSelector with
       | some _ => ["namespaces: same as policy"]
       | none => []) ++
    (match peer.ipBlock with
     | some blk => ["cidr: " ++ blk.cidr]
     | none => [])
  if parts.isEmpty then "any" else String.intercalate ", " parts

/-- formatPolicyPort (part_002 lines 1210-1225). -/
def formatPolicyPort (p : NetworkPolicyPort) : String :=
  let protocol := match p.protocol with
    | some pr => pr
    | none => "TCP"
  match p.port with
  | none => protocol ++ "/*"
  | some (IntOrString.int v) => protocol ++ "/" ++ itoa v
  | some (IntOrString.str s) => protocol ++ "/" ++ s

/-- formatK8sRule (part_002 lines 1148-1175). -/
def formatK8sRule (rule : NetworkPolicyIngressRule) (idx : Nat) : String :=
  let fromPart :=
    if rule.fromPeers.isEmpty then "from: all"
    else "from: " ++ String.intercalate ", " (rule.fromPeers.map formatPeer)
  let portsPart :=
    if rule.ports.isEmpty then "ports: all"
    else "ports: " ++ String.intercalate ", " (rule.ports.map formatPolicyPort)
  "NetworkPolicy Rule " ++ itoa (idx + 1) ++ ": " ++
    String.intercalate "; " [fromPart, portsPart]

/-- formatIstioRule (part_002 lines 868-918). -/
def formatIstioRule (rule : IstioRule) (idx : Nat) : String :=
  let fromParts : List String :=
    if rule.fromList.isEmpty then ["from: all"]
    else
      let sources := rule.fromList.flatMap (fun f =>
        match f with
        | none => []
        | some fe =>
          match fe.source with
          | none => []
          | some source =>
            (if source.principals.isEmpty then []
             else ["principals: " ++ goFmtStrSlice source.principals]) ++
            (if source.namespaces.isEmpty then []
             else ["namespaces: " ++ goFmtStrSlice source.namespaces]))
      if sources.isEmpty then [] else ["from: " ++ String.intercalate ", " sources]
  let toParts : List String :=
    if rule.toList.isEmpty then ["to: all"]
    else
      let ops := rule.toList.flatMap (fun t =>
        match t with
        | none => []
        | some te =>
          match te.operation with
          | none => []
          | some op =>
            (if op.ports.isEmpty then [] else ["ports: " ++ goFmtStrSlice op.ports]) ++
            (if op.methods.isEmpty then [] else ["methods: " ++ goFmtStrSlice op.methods]) ++
            (if op.paths.isEmpty then [] else ["paths: " ++ goFmtStrSlice op.paths]))
      if ops.isEmpty then [] else ["to: " ++ String.intercalate ", " ops]
  "AuthzPolicy Rule " ++ itoa (idx + 1) ++ ": " ++
    String.intercalate "; " (fromParts ++ toParts)

/-- Models the external sigs.k8s.io/yaml serialization of a NetworkPolicy
document (with managedFields elided, degrading to "" on error): the engine
only needs it to be a fixed, deterministic, total function of the policy
value; the concrete rendering is irrelevant to every claim. -/
def yamlMarshalK8s (p : NetworkPolicy) : String :=
  "NetworkPolicy " ++ p.ns ++ "/" ++ p.name

/-- Models the external sigs.k8s.io/yaml serialization of an Istio
AuthorizationPolicy document, as for yamlMarshalK8s. -/
def yamlMarshalIstio (p : IstioAuthorizationPolicy) : String :=
  "AuthorizationPolicy " ++ p.ns ++ "/" ++ p.name

/-- int32 truncation of a Go int (used by the int32(port) conversion in
processIstioAuthPolicy's PortID call). -/
def toInt32 (n : Int) : Int := ((n + 2 ^ 31) % 2 ^ 32) - 2 ^ 31

/-- The two warning accumulators threaded through
processK8sNetworkPolicyWithWarnings (part_002 lines 544-650): the per-policy
warnings map (workloadID -> set of warning kinds, kept in insertion order)
and the WarningDetail list. -/
structure K8sWarnState where
  flags : List (String × List WarningType)
  details : List WarningDetail
deriving Repr, DecidableEq

/-- Lookup in the per-policy warnings map; a missing workload reads as the
empty kind set (Go nil-map read). -/
def flagsLookup (flags : List (String × List WarningType)) (wid : String) : List WarningType :=
  match flags.find? (fun kv => kv.1 == wid) with
  | some kv => kv.2
  | none => []

/-- Record one warning kind for one workload in the per-policy warnings
map (the map entry exists for every target thanks to the init loop). -/
def flagsInsert : List (String × List WarningType) → String → WarningType →
    List (String × List WarningType)
  | [], _, _ => []
  | kv :: rest, wid, k =>
    if kv.1 == wid then (kv.1, kv.2 ++ [k]) :: rest else kv :: flagsInsert rest wid k

/-- The warnings-map initialization loop of
processK8sNetworkPolicyWithWarnings (lines 556-561): one empty entry per
target workload ID, first-occurrence order. -/
def initFlags : List Workload → List (String × List WarningType) →
    List (String × List WarningType)
  | [], acc => acc
  | t :: rest, acc =>
    if (acc.find? (fun kv => kv.1 == widW t)).isSome then initFlags rest acc
    else initFlags rest (acc ++ [(widW t, [])])

/-- One conditional warning write of processK8sNetworkPolicyWithWarnings
(the body of the `if hasNoPorts { if !warnings[wid][kind] { ... } }` blocks
at lines 577-600): when the looseness condition holds and the kind is not
yet flagged for this workload in this policy, flag it and append one
WarningDetail. -/
def warnRecord (policyFullName : String) (k : WarningType) (cond : Bool)
    (t : Workload) (s : K8sWarnState) : K8sWarnState :=
  if cond ∧ k ∉ flagsLookup s.flags (widW t) then
    { flags := flagsInsert s.flags (widW t) k
      details := s.details ++
        [{ workloadID := widW t, workloadName := t.name, ns := t.ns
           policyName := policyFullName, warningType := k }] }
  else s

/-- The warning bookkeeping for one target workload inside one ingress rule
(lines 576-600): flag and record unrestricted-ports, then
unrestricted-source. -/
def warnTargetStep (policyFullName : String) (hasNoPorts hasNoSelector : Bool)
    (t : Workload) (s : K8sWarnState) : K8sWarnState :=
  warnRecord policyFullName WarningType.noSelector hasNoSelector t
    (warnRecord policyFullName WarningType.noPorts hasNoPorts t s)

/-- The warning half of processK8sNetworkPolicyWithWarnings: rules in
declaration order, targets in match order.  The edge half is
processK8sEdges below; the two halves touch disjoint state in the source
and are modelled as separate passes. -/
def processK8sWarnState (policy : NetworkPolicy) (workloads : List Workload) : K8sWarnState :=
  let targets := findMatchingWorkloads policy.ns policy.podSelector workloads
  policy.ingress.foldl
    (fun s rule =>
      targets.foldl
        (fun s t =>
          warnTargetStep (policy.ns ++ "/" ++ policy.name)
            rule.ports.isEmpty rule.fromPeers.isEmpty t s)
        s)
    { flags := initFlags targets [], details := [] }

/-- One edge of the K8s evaluator (lines 629-641); the id is assigned
globally by numberEdges, which the threaded edgeID counter of the source
amounts to (exactly one edge is appended per increment). -/
def mkK8sEdge (policy : NetworkPolicy) (rule : NetworkPolicyIngressRule) (ruleIdx : Nat)
    (sourceWID targetWID : String) (port : Port) : Edge :=
  let protocol := effectiveProtocol port
  { id := ""
    source := sourceWID
    target := PortID targetWID port.containerPort protocol
    label := protocol ++ ":" ++ itoa port.containerPort
    rule := formatK8sRule rule ruleIdx
    policy := policy.ns ++ "/" ++ policy.name
    policyYAML := yamlMarshalK8s policy
    metadata := [("policyType", "NetworkPolicy"), ("ruleType", "ingress")] }

/-- The edge half of processK8sNetworkPolicyWithWarnings (lines 563-647):
rules, then targets, then sources (skipping self-edges), then allowed
ports, in the source's loop order. -/
def processK8sEdges (nsLabelsMap : List (String × Labels)) (policy : NetworkPolicy)
    (workloads : List Workload) (sigma : List String) : List Edge :=
  let targets := findMatchingWorkloads policy.ns policy.podSelector workloads
  policy.ingress.enum.flatMap (fun ir =>
    let sources := findSourceWorkloads nsLabelsMap policy.ns ir.2.fromPeers workloads sigma
    targets.flatMap (fun t =>
      let targetWID := widW t
      let allowedPorts := getAllowedPorts t ir.2.ports
      sources.flatMap (fun s =>
        let sourceWID := widW s
        if sourceWID = targetWID then []
        else allowedPorts.map (mkK8sEdge policy ir.2 ir.1 sourceWID targetWID))))

/-- One edge of the Istio evaluator (lines 714-726); the PortID call
converts the parsed port through int32. -/
def mkIstioEdge (policy : IstioAuthorizationPolicy) (rule : IstioRule) (ruleIdx : Nat)
    (sourceWID targetWID : String) (port : Int) : Edge :=
  { id := ""
    source := sourceWID
    target := PortID targetWID (toInt32 port) "TCP"
    label := "TCP:" ++ itoa port
    rule := formatIstioRule rule ruleIdx
    policy := policy.ns ++ "/" ++ policy.name
    policyYAML := yamlMarshalIstio policy
    metadata := [("policyType", "AuthorizationPolicy"), ("action", policy.spec.action)] }

/-- The target-workload resolution of processIstioAuthPolicy (lines
660-667): a selector with match labels filters the policy's namespace,
anything else means every workload of that namespace. -/
def istioTargets (policy : IstioAuthorizationPolicy) (workloads : List Workload) :
    List Workload :=
  match policy.spec.selector with
  | some sel =>
    if 0 < sel.matchLabels.length then findWorkloadsByLabels policy.ns sel.matchLabels workloads
    else bucket workloads policy.ns
  | none => bucket workloads policy.ns

/-- processIstioAuthPolicy (lines 652-735): rules (skipping nil), then
targets, then sources (skipping self-edges), then target ports, where the
target ports are the parsed policy ports, falling back to the workload's
declared ports when none parse. -/
def processIstioAuthPolicy (policy : IstioAuthorizationPolicy)
    (workloads : List Workload) (sigma : List String) : List Edge :=
  let targets := istioTargets policy workloads
  policy.spec.rules.enum.flatMap (fun ir =>
    match ir.2 with
    | none => []
    | some rule =>
      let sources := findIstioSourceWorkloads rule.fromList workloads sigma
      let allowedPorts := getIstioAllowedPorts rule.toList
      targets.flatMap (fun t =>
        let targetWID := widW t
        let targetPorts :=
          if allowedPorts.isEmpty then t.ports.map (fun p => p.containerPort)
          else allowedPorts
        sources.flatMap (fun s =>
          let sourceWID := widW s
          if sourceWID = targetWID then []
          else targetPorts.map (mkIstioEdge policy rule ir.1 sourceWID targetWID))))

/-- The per-policy dispatch of Build's policy loop (lines 427-447), edge
part. -/
def policyEdges (nsLabelsMap : List (String × Labels)) (workloads : List Workload)
    (sigma : List String) (p : Policy) : List Edge :=
  match p.type with
  | PolicyType.k8sNetworkPolicy =>
    match p.k8sNetworkPolicy with
    | some np => processK8sEdges nsLabelsMap np workloads sigma
    | none => []
  | PolicyType.istioAuthorizationPolicy =>
    match p.istioAuthPolicy with
    | some ip => processIstioAuthPolicy ip workloads sigma
    | none => []

/-- The per-policy dispatch of Build's policy loop, warning-detail part:
only the K8s branch produces details. -/
def policyDetails (workloads : List Workload) (p : Policy) : List WarningDetail :=
  match p.type with
  | PolicyType.k8sNetworkPolicy =>
    match p.k8sNetworkPolicy with
    | some np => (processK8sWarnState np workloads).details
    | none => []
  | PolicyType.istioAuthorizationPolicy => []

/-- The workloadWarnings accumulator of Build, initialized with one empty
entry per workload ID (lines 404-411). -/
def initWW (workloads : List Workload) : List (String × List WarningType) :=
  (dedupKeysAux (workloads.map widW) []).map (fun wid => (wid, []))

/-- One `workloadWarnings[wID][warn] = true` write of Build's merge loop
(lines 434-439): add the kind to the workload's set if not yet present. -/
def wwInsert (ww : List (String × List WarningType)) (wid : String) (k : WarningType) :
    List (String × List WarningType) :=
  ww.map (fun kv => if kv.1 == wid ∧ k ∉ kv.2 then (kv.1, kv.2 ++ [k]) else kv)

/-- Merge one policy's warnings map into workloadWarnings. -/
def mergeFlags (ww : List (String × List WarningType))
    (flags : List (String × List WarningType)) : List (String × List WarningType) :=
  flags.foldl (fun ww kv => kv.2.foldl (fun ww k => wwInsert ww kv.1 k) ww) ww

/-- The warnings-merge over all policies in Build's policy loop. -/
def mergeWarnings (workloads : List Workload) (policies : List Policy) :
    List (String × List WarningType) :=
  policies.foldl
    (fun ww p =>
      match p.type with
      | PolicyType.k8sNetworkPolicy =>
        match p.k8sNetworkPolicy with
        | some np => mergeFlags ww (processK8sWarnState np workloads).flags
        | none => ww
      | PolicyType.istioAuthorizationPolicy => ww)
    (initWW workloads)

/-- The node-creation loop of Build (lines 406-423): one workload node then
its port nodes, per input workload in input order. -/
def buildNodesList (ws : List Workload) : List Node :=
  ws.flatMap (fun w => NewWorkloadNode w :: w.ports.map (NewPortNode (widW w)))

/-- The nodeIndex map of Build: workload ID -> index of its workload node
in the node list; a duplicate ID overwrites, so lookup returns the last
workload's index (later entries are placed in front for find?). -/
def buildNodeIndex : List Workload → Nat → List (String × Nat)
  | [], _ => []
  | w :: rest, off => buildNodeIndex rest (off + 1 + w.ports.length) ++ [(widW w, off)]

/-- nodeIndex lookup. -/
def nodeIndexLookup (idx : List (String × Nat)) (wid : String) : Option Nat :=
  (idx.find? (fun kv => kv.1 == wid)).map (fun kv => kv.2)

/-- `graph.Nodes[idx].Warnings = warnings` as a list update. -/
def setNodeWarnings : List Node → Nat → List WarningType → List Node
  | [], _, _ => []
  | n :: rest, 0, ws => { n with warnings := ws } :: rest
  | n :: rest, i + 1, ws => n :: setNodeWarnings rest i ws

/-- The warning-application loop of Build (lines 450-458): write each
workload's accumulated nonempty kind set onto its node. -/
def applyWarnings (nodes : List Node) (idx : List (String × Nat))
    (ww : List (String × List WarningType)) : List Node :=
  ww.foldl
    (fun nodes kv =>
      if kv.2.isEmpty then nodes
      else
        match nodeIndexLookup idx kv.1 with
        | some i => setNodeWarnings nodes i kv.2
        | none => nodes)
    nodes

/-- Edge-id assignment: the source threads an integer counter through the
policy loop and appends exactly one edge per increment, which is the same
as numbering the concatenated edge list in order. -/
def numberEdges (es : List Edge) : List Edge :=
  es.enum.map (fun ie => { ie.2 with id := "edge-" ++ itoa (ie.1 : Int) })

/-- Build (part_002 lines 390-461), parameterized by sigma, the iteration
order Go's randomized map range gives the workloadsByNS keys. -/
def BuildWith (nsLabelsMap : List (String × Labels)) (workloads : List Workload)
    (policies : List Policy) (sigma : List String) : NetworkGraph :=
  { nodes := applyWarnings (buildNodesList workloads) (buildNodeIndex workloads 0)
      (mergeWarnings workloads policies)
    edges := numberEdges (policies.flatMap (policyEdges nsLabelsMap workloads sigma))
    warningDetails := policies.flatMap (policyDetails workloads) }

/-- Build at the canonical (first-insertion) key order. -/
def Build (nsLabelsMap : List (String × Labels)) (workloads : List Workload)
    (policies : List Policy) : NetworkGraph :=
  BuildWith nsLabelsMap workloads policies (nsKeys workloads)

/-- A node with its accumulated warning set blanked (for comparing node
lists independently of warning attachment). -/
def stripWarnings (n : Node) : Node := { n with warnings := [] }

/-- An edge with its assignment-order id blanked (edge contents "up to
edge id"). -/
def eraseId (e : Edge) : Edge := { e with id := "" }

/-- The number of WarningDetail records for one (workload, warning kind)
pair in a detail list. -/
def countD (details : List WarningDetail) (wid : String) (k : WarningType) : Nat :=
  details.countP (fun d => d.workloadID == wid && d.warningType == k)

/-- A string free of the two characters the node-ID scheme uses as
separators. -/
def sepFree (s : String) : Prop := '/' ∉ s.data ∧ ':' ∉ s.data

instance (s : String) : Decidable (sepFree s) := by
  unfold sepFree
  infer_instance

/-- Verification predicate: the per-policy warnings map has an entry for
every target workload (established by the init loop, preserved by every
write). -/
def flagsHaveKeys (targets : List Workload) (s : K8sWarnState) : Prop :=
  ∀ t ∈ targets, ((s.flags).find? (fun kv => kv.1 == widW t)).isSome = true

/-- Verification predicate: the detail list holds exactly one record per
flagged (workload, kind) pair and none for unflagged pairs. -/
def detailsMatchFlags (s : K8sWarnState) : Prop :=
  ∀ wid k, countD s.details wid k = if k ∈ flagsLookup s.flags wid then 1 else 0

/-- C1 (counterexample): the claim says a workload port that declares no
protocol is treated as TCP, so a TCP constraint matches a protocol-less
workload port whose port value matches.  At the concrete input of a
protocol-less port 80 and a TCP/80 constraint, portMatches returns false:
the matcher compares the constraint protocol against the raw protocol
field and never applies the TCP default (the default is applied only in
the display paths, NewPortNode and the edge constructors). -/
theorem portMatches_no_tcp_default_counterexample :
    portMatches { name := "", containerPort := 80, protocol := "" }
      { protocol := some "TCP", port := some (IntOrString.int 80) } = false := by
  decide

/-- C1 (amended): portMatches returns true for a constraint with no
protocol regardless of the workload port's protocol; when the constraint
does specify a protocol, it matches by case-sensitive verbatim comparison
against the workload port's protocol field, with no TCP defaulting for a
protocol-less workload port; the port part matches when the constraint has
no port value, or its numeric value equals the workload port number, or
its string value equals the workload port name. -/
theorem portMatches_characterization (wPort : Port) (pPort : NetworkPolicyPort) :
    portMatches wPort pPort = true ↔
      ((pPort.protocol = none ∨ pPort.protocol = some wPort.protocol) ∧
       (pPort.port = none ∨ pPort.port = some (IntOrString.int wPort.containerPort) ∨
        pPort.port = some (IntOrString.str wPort.name))) := by
  rcases pPort with ⟨proto, port⟩
  rcases proto with _ | pr <;> rcases port with _ | (v | s) <;> simp [portMatches]

/-- C3: for every policy peer, an absent namespace selector resolves to
exactly the policy's own namespace; a present but requirement-free
selector resolves to every namespace known to the scan (the workloadsByNS
key set, iterated as sigma); a selector with requirements resolves to
exactly the known namespaces whose recorded label set satisfies it; and a
namespace with no recorded labels reads as the empty label set. -/
theorem getNamespacesForPeer_scope (nsLabelsMap : List (String × Labels))
    (policyNamespace : String) (peer : NetworkPolicyPeer) (sigma : List String) :
    (peer.namespaceSelector = none →
      getNamespacesForPeer nsLabelsMap policyNamespace peer sigma = [policyNamespace]) ∧
    (∀ sel, peer.namespaceSelector = some sel →
      sel.matchLabels = [] → sel.matchExpressions = [] →
      getNamespacesForPeer nsLabelsMap policyNamespace peer sigma = sigma) ∧
    (∀ sel, peer.namespaceSelector = some sel →
      (sel.matchLabels ≠ [] ∨ sel.matchExpressions ≠ []) →
      ∀ ns, ns ∈ getNamespacesForPeer nsLabelsMap policyNamespace peer sigma ↔
        (ns ∈ sigma ∧ namespaceMatchesSelector (lookupNSLabels nsLabelsMap ns) sel = true)) ∧
    (∀ ns, nsLabelsMap.find? (fun kv => kv.1 == ns) = none →
      lookupNSLabels nsLabelsMap ns = []) := by
  refine ⟨?_, ?_, ?_, ?_⟩
  · intro h
    simp [getNamespacesForPeer, h]
  · intro sel h h1 h2
    simp [getNamespacesForPeer, h, h1, h2]
  · intro sel h hne ns
    have hcond : ¬ (sel.matchLabels = [] ∧ sel.matchExpressions = []) := by tauto
    simp [getNamespacesForPeer, h, hcond, List.mem_filter]
  · intro ns h
    simp [lookupNSLabels, h]

/-- Witness for C3 at concrete inputs: an absent selector, an empty
selector, and a selector with one requirement, over the known namespaces
n1 (labelled team=a) and n2 (no record). -/
theorem getNamespacesForPeer_scope_witness :
    getNamespacesForPeer [("n1", [("team", "a")])] "ns0"
      { podSelector := none, namespaceSelector := none, ipBlock := none } ["n1", "n2"] = ["ns0"] ∧
    getNamespacesForPeer [("n1", [("team", "a")])] "ns0"
      { podSelector := none
        namespaceSelector := some { matchLabels := [], matchExpressions := [] }
        ipBlock := none } ["n1", "n2"] = ["n1", "n2"] ∧
    ("n1" ∈ getNamespacesForPeer [("n1", [("team", "a")])] "ns0"
      { podSelector := none
        namespaceSelector := some { matchLabels := [("team", "a")], matchExpressions := [] }
        ipBlock := none } ["n1", "n2"] ↔
      ("n1" ∈ ["n1", "n2"] ∧
        namespaceMatchesSelector (lookupNSLabels [("n1", [("team", "a")])] "n1")
          { matchLabels := [("team", "a")], matchExpressions := [] } = true)) := by
  refine ⟨?_, ?_, ?_⟩
  · exact (getNamespacesForPeer_scope _ _ _ _).1 rfl
  · exact (getNamespacesForPeer_scope _ _ _ _).2.1 _ rfl rfl rfl
  · exact (getNamespacesForPeer_scope _ _ _ _).2.2.1 _ rfl (by simp) "n1"

/-- C8: a principal-rule source entry carrying a single principal
contributes no source workloads when no namespace token can be extracted
from the principal string (no fallback to all namespaces), and exactly the
workloads of the extracted namespace (first occurrence per workload
identity) when the token parses. -/
theorem istio_principal_scope (p : String) (workloads : List Workload) (sigma : List String) :
    (extractNamespaceFromPrincipal p = "" →
      findIstioSourceWorkloads [some { source := some { principals := [p], namespaces := [] } }]
        workloads sigma = []) ∧
    (extractNamespaceFromPrincipal p ≠ "" →
      findIstioSourceWorkloads [some { source := some { principals := [p], namespaces := [] } }]
        workloads sigma = dedupByID (bucket workloads (extractNamespaceFromPrincipal p))) := by
  constructor
  · intro h
    simp [findIstioSourceWorkloads, h, dedupByID, dedupByIDAux]
  · intro h
    simp [findIstioSourceWorkloads, h, dedupByID]

/-- Witness for C8: "spiffe" has no ns segment and contributes nothing;
"cluster.local/ns/foo/sa/bar" parses to foo and contributes the workloads
of namespace foo. -/
theorem istio_principal_scope_witness :
    (extractNamespaceFromPrincipal "spiffe" = "" ∧
      findIstioSourceWorkloads [some { source := some { principals := ["spiffe"], namespaces := [] } }]
        [{ name := "w", ns := "foo", kind := "Deployment", labels := [], ports := [] }] ["foo"] = []) ∧
    (extractNamespaceFromPrincipal "cluster.local/ns/foo/sa/bar" ≠ "" ∧
      findIstioSourceWorkloads
        [some { source := some { principals := ["cluster.local/ns/foo/sa/bar"], namespaces := [] } }]
        [{ name := "w", ns := "foo", kind := "Deployment", labels := [], ports := [] }] ["foo"] =
        dedupByID (bucket [{ name := "w", ns := "foo", kind := "Deployment", labels := [], ports := [] }]
          (extractNamespaceFromPrincipal "cluster.local/ns/foo/sa/bar"))) := by
  constructor
  · exact ⟨by decide, (istio_principal_scope _ _ _).1 (by decide)⟩
  · exact ⟨by decide, (istio_principal_scope _ _ _).2 (by decide)⟩

/-- Helper: an edge of the numbered edge list is an edge of the raw list
with only its id replaced. -/
theorem mem_of_mem_numberEdges {e : Edge} {es : List Edge} (h : e ∈ numberEdges es) :
    ∃ e' ∈ es, e.source = e'.source ∧ e.target = e'.target := by
  simp only [numberEdges, List.mem_map] at h
  obtain ⟨ie, hie, he⟩ := h
  have h2 : ie.2 ∈ es := by
    rcases ie with ⟨i, x⟩
    exact List.getElem?_mem (List.mk_mem_enum_iff_getElem?.mp hie)
  exact ⟨ie.2, h2, by rw [← he], by rw [← he]⟩

/-- Helper: freshly created nodes carry no warnings. -/
theorem buildNodesList_warnings (ws : List Workload) :
    ∀ n ∈ buildNodesList ws, n.warnings = [] := by
  intro n hn
  simp only [buildNodesList, List.mem_flatMap, List.mem_cons, List.mem_map] at hn
  obtain ⟨w, hw, hn⟩ := hn
  rcases hn with h | ⟨p, hp, h⟩ <;> subst h <;> rfl

/-- Helper: writing a warning set at an index preserves the node count. -/
theorem setNodeWarnings_length (nodes : List Node) (i : Nat) (ks : List WarningType) :
    (setNodeWarnings nodes i ks).length = nodes.length := by
  induction nodes generalizing i with
  | nil => rfl
  | cons n rest ih =>
    cases i with
    | zero => rfl
    | succ j => simp [setNodeWarnings, ih]

/-- Helper: writing a warning set changes nothing but the warning field. -/
theorem setNodeWarnings_map_strip (nodes : List Node) (i : Nat) (ks : List WarningType) :
    (setNodeWarnings nodes i ks).map stripWarnings = nodes.map stripWarnings := by
  induction nodes generalizing i with
  | nil => rfl
  | cons n rest ih =>
    cases i with
    | zero => simp [setNodeWarnings, stripWarnings]
    | succ j => simp [setNodeWarnings, ih]

/-- Helper: warning application preserves the node count. -/
theorem applyWarnings_length (nodes : List Node) (idx : List (String × Nat))
    (ww : List (String × List WarningType)) :
    (applyWarnings nodes idx ww).length = nodes.length := by
  induction ww generalizing nodes with
  | nil => rfl
  | cons kv rest ih =>
    simp only [applyWarnings, List.foldl_cons] at ih ⊢
    rw [ih]
    split
    · rfl
    · split
      · exact setNodeWarnings_length _ _ _
      · rfl

/-- Helper: warning application changes only warning fields. -/
theorem applyWarnings_map_strip (nodes : List Node) (idx : List (String × Nat))
    (ww : List (String × List WarningType)) :
    (applyWarnings nodes idx ww).map stripWarnings = nodes.map stripWarnings := by
  induction ww generalizing nodes with
  | nil => rfl
  | cons kv rest ih =>
    simp only [applyWarnings, List.foldl_cons] at ih ⊢
    rw [ih]
    split
    · rfl
    · split
      · exact setNodeWarnings_map_strip _ _ _
      · rfl

/-- Helper: applying an all-empty warning table is a no-op. -/
theorem applyWarnings_of_empty (nodes : List Node) (idx : List (String × Nat))
    (ww : List (String × List WarningType)) (h : ∀ kv ∈ ww, kv.2 = []) :
    applyWarnings nodes idx ww = nodes := by
  induction ww generalizing nodes with
  | nil => rfl
  | cons kv rest ih =>
    simp only [applyWarnings, List.foldl_cons] at ih ⊢
    have h1 : kv.2 = [] := h kv (by simp)
    rw [show (if kv.2.isEmpty = true then nodes
      else match nodeIndexLookup idx kv.1 with
           | some i => setNodeWarnings nodes i kv.2
           | none => nodes) = nodes by simp [h1]]
    exact ih _ (fun kv hkv => h kv (by simp [hkv]))

/-- Helper: a fold whose steps all fix the accumulator returns its seed. -/
theorem foldl_id_of_steps {α β : Type} (f : β → α → β) (l : List α) (b : β)
    (h : ∀ acc, ∀ x ∈ l, f acc x = acc) : List.foldl f b l = b := by
  induction l generalizing b with
  | nil => rfl
  | cons x xs ih =>
    rw [List.foldl_cons, h b x (by simp)]
    exact ih b (fun acc y hy => h acc y (by simp [hy]))

/-- Helper: principal-rule policies leave the warning accumulator at its
initial all-empty state. -/
theorem mergeWarnings_istio (workloads : List Workload) (policies : List Policy)
    (h : ∀ p ∈ policies, p.type = PolicyType.istioAuthorizationPolicy) :
    mergeWarnings workloads policies = initWW workloads := by
  unfold mergeWarnings
  apply foldl_id_of_steps
  intro acc p hp
  have hp2 := h p hp
  rw [hp2]

/-- Helper: every K8s-evaluator edge targets a port node id built from a
target workload and one of its allowed ports, and never from its own
source. -/
theorem k8s_edges_shape (nsl : List (String × Labels)) (policy : NetworkPolicy)
    (ws : List Workload) (sigma : List String) :
    ∀ e ∈ processK8sEdges nsl policy ws sigma,
      ∃ ir ∈ policy.ingress.enum,
      ∃ t ∈ findMatchingWorkloads policy.ns policy.podSelector ws,
      ∃ port ∈ getAllowedPorts t ir.2.ports,
        e.target = PortID (widW t) port.containerPort (effectiveProtocol port) ∧
        e.source ≠ widW t := by
  intro e he
  simp only [processK8sEdges, List.mem_flatMap] at he
  obtain ⟨ir, hir, he⟩ := he
  obtain ⟨t, ht, he⟩ := he
  obtain ⟨s, hs, he⟩ := he
  split at he
  · simp at he
  · rename_i hst
    rw [List.mem_map] at he
    obtain ⟨port, hport, he⟩ := he
    subst he
    exact ⟨ir, hir, t, ht, port, hport, rfl, hst⟩

/-- Helper: every Istio-evaluator edge targets a port node id built from a
target workload and a rule port (or declared port on fallback), never its
own source. -/
theorem istio_edges_shape (policy : IstioAuthorizationPolicy)
    (workloads : List Workload) (sigma : List String) :
    ∀ e ∈ processIstioAuthPolicy policy workloads sigma,
      ∃ ir ∈ policy.spec.rules.enum, ∃ rule, ir.2 = some rule ∧
      ∃ t ∈ istioTargets policy workloads, ∃ port,
        (port ∈ (if (getIstioAllowedPorts rule.toList).isEmpty
                 then t.ports.map (fun p => p.containerPort)
                 else getIstioAllowedPorts rule.toList)) ∧
        e.target = PortID (widW t) (toInt32 port) "TCP" ∧ e.source ≠ widW t := by
  intro e he
  simp only [processIstioAuthPolicy, List.mem_flatMap] at he
  obtain ⟨ir, hir, he⟩ := he
  rcases hr : ir.2 with _ | rule
  · rw [hr] at he
    simp at he
  · rw [hr] at he
    simp only [List.mem_flatMap] at he
    obtain ⟨t, ht, he⟩ := he
    obtain ⟨s, hs, he⟩ := he
    split at he
    · simp at he
    · rename_i hst
      rw [List.mem_map] at he
      obtain ⟨port, hport, he⟩ := he
      subst he
      exact ⟨ir, hir, rule, hr, t, ht, port, hport, rfl, hst⟩

/-- Helper: node count of the creation pass. -/
theorem buildNodesList_length (ws : List Workload) :
    (buildNodesList ws).length = ws.length + (ws.map (fun w => w.ports.length)).sum := by
  induction ws with
  | nil => rfl
  | cons w rest ih =>
    simp only [buildNodesList, List.flatMap_cons, List.length_append, List.length_cons,
      List.length_map, List.map_cons, List.sum_cons] at ih ⊢
    omega

/-- C2 (counterexample): the claim says every emitted edge's target port is
one of the target workload's declared ports satisfying the rule's port
constraints, and a port named only in the policy never appears as an edge
target.  With an Istio policy whose rule allows port 9999 and two target
workloads (src with no declared ports, dst declaring only TCP/80), the
evaluator emits edges targeting the port-9999 node of both workloads: the
policy-only port 9999 appears as an edge target although neither workload
declares it. -/
theorem istio_undeclared_port_counterexample :
    ((processIstioAuthPolicy
        { name := "ap", ns := "a"
          spec := { selector := none
                    rules := [some { fromList := [some { source := some { principals := [], namespaces := ["a"] } }]
                                     toList := [some { operation := some { ports := ["9999"], methods := [], paths := [] } }] }]
                    action := "ALLOW" } }
        [{ name := "src", ns := "a", kind := "Deployment", labels := [], ports := [] },
         { name := "dst", ns := "a", kind := "Deployment", labels := [], ports := [{ name := "", containerPort := 80, protocol := "TCP" }] }]
        ["a"]).map (fun e => (e.source, e.target)) =
      [("a/dst", "a/src:TCP/9999"), ("a/src", "a/dst:TCP/9999")]) ∧
    (∀ p ∈ ([{ name := "", containerPort := 80, protocol := "TCP" }] : List Port),
        PortID "a/dst" p.containerPort (effectiveProtocol p) ≠ "a/dst:TCP/9999") ∧
    (∀ p ∈ ([] : List Port),
        PortID "a/src" p.containerPort (effectiveProtocol p) ≠ "a/src:TCP/9999") := by
  exact ⟨by decide, by decide, by decide⟩

/-- C2 (amended): every edge emitted by the Istio evaluator comes from some
rule and some target workload, and its target port is drawn from the
rule's parsed port list when that list is non-empty — regardless of the
workload's declared ports, so a policy-only port can appear as an edge
target — and from the workload's declared ports only when no policy port
parses; the self-edge skip always applies. -/
theorem istio_edge_target_ports (policy : IstioAuthorizationPolicy)
    (workloads : List Workload) (sigma : List String) :
    ∀ e ∈ processIstioAuthPolicy policy workloads sigma,
      ∃ ir ∈ policy.spec.rules.enum, ∃ rule, ir.2 = some rule ∧
      ∃ t ∈ istioTargets policy workloads, ∃ port,
        (port ∈ (if (getIstioAllowedPorts rule.toList).isEmpty
                 then t.ports.map (fun p => p.containerPort)
                 else getIstioAllowedPorts rule.toList)) ∧
        e.target = PortID (widW t) (toInt32 port) "TCP" ∧ e.source ≠ widW t := by
  intro e he
  simp only [processIstioAuthPolicy, List.mem_flatMap] at he
  obtain ⟨ir, hir, he⟩ := he
  rcases hr : ir.2 with _ | rule
  · rw [hr] at he
    simp at he
  · rw [hr] at he
    simp only [List.mem_flatMap] at he
    obtain ⟨t, ht, he⟩ := he
    obtain ⟨s, hs, he⟩ := he
    split at he
    · simp at he
    · rename_i hst
      rw [List.mem_map] at he
      obtain ⟨port, hport, he⟩ := he
      subst he
      exact ⟨ir, hir, rule, hr, t, ht, port, hport, rfl, hst⟩

/-- Witness for C2 (amended) at the counterexample input, applied to the
first emitted edge. -/
theorem istio_edge_target_ports_witness :
    ∃ ir ∈ ({ name := "ap", ns := "a"
              spec := { selector := none
                        rules := [some { fromList := [some { source := some { principals := [], namespaces := ["a"] } }]
                                         toList := [some { operation := some { ports := ["9999"], methods := [], paths := [] } }] }]
                        action := "ALLOW" } } : IstioAuthorizationPolicy).spec.rules.enum,
    ∃ rule, ir.2 = some rule ∧
    ∃ t ∈ istioTargets
        { name := "ap", ns := "a"
          spec := { selector := none
                    rules := [some { fromList := [some { source := some { principals := [], namespaces := ["a"] } }]
                                     toList := [some { operation := some { ports := ["9999"], methods := [], paths := [] } }] }]
                    action := "ALLOW" } }
        [{ name := "src", ns := "a", kind := "Deployment", labels := [], ports := [] },
         { name := "dst", ns := "a", kind := "Deployment", labels := [], ports := [{ name := "", containerPort := 80, protocol := "TCP" }] }],
    ∃ port,
      (port ∈ (if (getIstioAllowedPorts rule.toList).isEmpty
               then t.ports.map (fun p => p.containerPort)
               else getIstioAllowedPorts rule.toList)) ∧
      ((processIstioAuthPolicy
          { name := "ap", ns := "a"
            spec := { selector := none
                      rules := [some { fromList := [some { source := some { principals := [], namespaces := ["a"] } }]
                                       toList := [some { operation := some { ports := ["9999"], methods := [], paths := [] } }] }]
                      action := "ALLOW" } }
          [{ name := "src", ns := "a", kind := "Deployment", labels := [], ports := [] },
           { name := "dst", ns := "a", kind := "Deployment", labels := [], ports := [{ name := "", containerPort := 80, protocol := "TCP" }] }]
          ["a"]).headD
        { id := "", source := "", target := "", label := "", rule := "", policy := "", policyYAML := "", metadata := [] }).target
        = PortID (widW t) (toInt32 port) "TCP" ∧
      ((processIstioAuthPolicy
          { name := "ap", ns := "a"
            spec := { selector := none
                      rules := [some { fromList := [some { source := some { principals := [], namespaces := ["a"] } }]
                                       toList := [some { operation := some { ports := ["9999"], methods := [], paths := [] } }] }]
                      action := "ALLOW" } }
          [{ name := "src", ns := "a", kind := "Deployment", labels := [], ports := [] },
           { name := "dst", ns := "a", kind := "Deployment", labels := [], ports := [{ name := "", containerPort := 80, protocol := "TCP" }] }]
          ["a"]).headD
        { id := "", source := "", target := "", label := "", rule := "", policy := "", policyYAML := "", metadata := [] }).source
        ≠ widW t := by
  exact istio_edge_target_ports _ _ ["a"] _ (by decide)

/-- C6: both rule evaluators skip the combination where the source and
target workload identities coincide, so every edge in the built graph has
its target port-node id formed from a target workload identity different
from the edge's source identity. -/
theorem build_no_self_edges (nsl : List (String × Labels)) (ws : List Workload)
    (pols : List Policy) (sigma : List String) :
    ∀ e ∈ (BuildWith nsl ws pols sigma).edges,
      ∃ targetWID port protocol,
        e.target = PortID targetWID port protocol ∧ e.source ≠ targetWID := by
  intro e he
  obtain ⟨e', he', hsrc, htgt⟩ := mem_of_mem_numberEdges he
  rw [List.mem_flatMap] at he'
  obtain ⟨p, hp, he'⟩ := he'
  rw [hsrc, htgt]
  unfold policyEdges at he'
  rcases hpt : p.type
  · rw [hpt] at he'
    rcases hk : p.k8sNetworkPolicy with _ | np
    · rw [hk] at he'
      simp at he'
    · rw [hk] at he'
      obtain ⟨ir, _, t, _, port, _, htgt', hneq⟩ := k8s_edges_shape nsl np ws sigma e' he'
      exact ⟨widW t, port.containerPort, effectiveProtocol port, htgt', hneq⟩
  · rw [hpt] at he'
    rcases hk : p.istioAuthPolicy with _ | ip
    · rw [hk] at he'
      simp at he'
    · rw [hk] at he'
      obtain ⟨ir, _, rule, _, t, _, port, _, htgt', hneq⟩ := istio_edges_shape ip ws sigma e' he'
      exact ⟨widW t, toInt32 port, "TCP", htgt', hneq⟩

/-- Witness for C6: the single edge of the frontend/backend scenario,
whose membership in the built graph is checked by evaluation. -/
theorem build_no_self_edges_witness :
    ∃ targetWID port protocol,
      ({ id := "edge-0"
         source := "default/frontend"
         target := "default/backend:TCP/8080"
         label := "TCP:8080"
         rule := "NetworkPolicy Rule 1: from: pods: map[app:frontend], namespaces: same as policy; ports: TCP/8080"
         policy := "default/allow-frontend"
         policyYAML := "NetworkPolicy default/allow-frontend"
         metadata := [("policyType", "NetworkPolicy"), ("ruleType", "ingress")] } : Edge).target
        = PortID targetWID port protocol ∧
      ({ id := "edge-0"
         source := "default/frontend"
         target := "default/backend:TCP/8080"
         label := "TCP:8080"
         rule := "NetworkPolicy Rule 1: from: pods: map[app:frontend], namespaces: same as policy; ports: TCP/8080"
         policy := "default/allow-frontend"
         policyYAML := "NetworkPolicy default/allow-frontend"
         metadata := [("policyType", "NetworkPolicy"), ("ruleType", "ingress")] } : Edge).source
        ≠ targetWID := by
  exact build_no_self_edges []
    [{ name := "frontend", ns := "default", kind := "Deployment", labels := [("app", "frontend")], ports := [] },
     { name := "backend", ns := "default", kind := "Deployment", labels := [("app", "backend")],
       ports := [{ name := "http", containerPort := 8080, protocol := "TCP" }] }]
    [{ name := "allow-frontend", ns := "default", type := PolicyType.k8sNetworkPolicy
       k8sNetworkPolicy := some
         { name := "allow-frontend", ns := "default"
           podSelector := { matchLabels := [("app", "backend")], matchExpressions := [] }
           ingress := [{ fromPeers := [{ podSelector := some { matchLabels := [("app", "frontend")], matchExpressions := [] }
                                         namespaceSelector := none, ipBlock := none }]
                         ports := [{ protocol := none, port := some (IntOrString.int 8080) }] }] }
       istioAuthPolicy := none }]
    ["default"] _ (by decide)

/-- C7: the node count of the built graph is the workload count plus the
sum of per-workload port counts, and the node list (up to the warning sets
attached after policy processing) is independent of the policy list:
policies never add or remove nodes. -/
theorem build_node_count (nsl : List (String × Labels)) (ws : List Workload)
    (pols : List Policy) (sigma : List String) :
    (BuildWith nsl ws pols sigma).nodes.length =
      ws.length + (ws.map (fun w => w.ports.length)).sum ∧
    (BuildWith nsl ws pols sigma).nodes.map stripWarnings =
      (BuildWith nsl ws [] sigma).nodes.map stripWarnings := by
  constructor
  · show (applyWarnings (buildNodesList ws) (buildNodeIndex ws 0)
      (mergeWarnings ws pols)).length = _
    rw [applyWarnings_length, buildNodesList_length]
  · show (applyWarnings (buildNodesList ws) (buildNodeIndex ws 0)
        (mergeWarnings ws pols)).map stripWarnings
      = (applyWarnings (buildNodesList ws) (buildNodeIndex ws 0)
        (mergeWarnings ws [])).map stripWarnings
    rw [applyWarnings_map_strip, applyWarnings_map_strip]

/-- C9: principal-rule (Istio) policies contribute edges only: a build
whose policies are all Istio policies has an empty warning-detail list and
no warning kinds on any node, whatever the policies' rules contain. -/
theorem istio_policies_no_warnings (nsl : List (String × Labels)) (ws : List Workload)
    (pols : List Policy) (sigma : List String)
    (h : ∀ p ∈ pols, p.type = PolicyType.istioAuthorizationPolicy) :
    (BuildWith nsl ws pols sigma).warningDetails = [] ∧
    ∀ n ∈ (BuildWith nsl ws pols sigma).nodes, n.warnings = [] := by
  constructor
  · show pols.flatMap (policyDetails ws) = []
    rw [List.flatMap_eq_nil_iff]
    intro p hp
    have hp2 := h p hp
    unfold policyDetails
    rw [hp2]
  · intro n hn
    have hn2 : n ∈ applyWarnings (buildNodesList ws) (buildNodeIndex ws 0)
        (mergeWarnings ws pols) := hn
    rw [mergeWarnings_istio ws pols h] at hn2
    rw [applyWarnings_of_empty _ _ _ ?hc] at hn2
    case hc =>
      intro kv hkv
      simp only [initWW, List.mem_map] at hkv
      obtain ⟨wid, _, hkv⟩ := hkv
      rw [← hkv]
    exact buildNodesList_warnings ws n hn2

/-- Witness for C9: an Istio-only build (one policy with an empty from-list
and empty to-list, i.e. both looseness conditions present) yields no
warning details and no node warnings. -/
theorem istio_policies_no_warnings_witness :
    (BuildWith []
        [{ name := "t", ns := "a", kind := "Deployment", labels := [],
           ports := [{ name := "", containerPort := 80, protocol := "TCP" }] }]
        [{ name := "ap", ns := "a", type := PolicyType.istioAuthorizationPolicy
           k8sNetworkPolicy := none
           istioAuthPolicy := some
             { name := "ap", ns := "a"
               spec := { selector := none, rules := [some { fromList := [], toList := [] }], action := "ALLOW" } } }]
        ["a"]).warningDetails = [] ∧
    ∀ n ∈ (BuildWith []
        [{ name := "t", ns := "a", kind := "Deployment", labels := [],
           ports := [{ name := "", containerPort := 80, protocol := "TCP" }] }]
        [{ name := "ap", ns := "a", type := PolicyType.istioAuthorizationPolicy
           k8sNetworkPolicy := none
           istioAuthPolicy := some
             { name := "ap", ns := "a"
               spec := { selector := none, rules := [some { fromList := [], toList := [] }], action := "ALLOW" } } }]
        ["a"]).nodes, n.warnings = [] := by
  exact istio_policies_no_warnings _ _ _ ["a"] (by decide)

theorem flagsLookup_cons (kv : String × List WarningType)
    (rest : List (String × List WarningType)) (w' : String) :
    flagsLookup (kv :: rest) w' = if kv.1 == w' then kv.2 else flagsLookup rest w' := by
  simp only [flagsLookup, List.find?_cons]
  by_cases h : kv.1 == w' <;> simp [h]

theorem flagsInsert_cons (kv : String × List WarningType)
    (rest : List (String × List WarningType)) (wid : String) (k : WarningType) :
    flagsInsert (kv :: rest) wid k =
      if kv.1 == wid then (kv.1, kv.2 ++ [k]) :: rest else kv :: flagsInsert rest wid k := by
  simp only [flagsInsert]

theorem flagsInsert_of_none {fl : List (String × List WarningType)} {wid : String}
    (k : WarningType) (h : fl.find? (fun kv => kv.1 == wid) = none) :
    flagsInsert fl wid k = fl := by
  induction fl with
  | nil => rfl
  | cons kv rest ih =>
    rw [List.find?_cons] at h
    split at h
    · exact absurd h (by simp)
    · rename_i hkv
      rw [flagsInsert_cons, if_neg (by simp [hkv]), ih h]

theorem flagsInsert_find?_isSome (fl : List (String × List WarningType))
    (wid w' : String) (k : WarningType) :
    ((flagsInsert fl wid k).find? (fun kv => kv.1 == w')).isSome =
      (fl.find? (fun kv => kv.1 == w')).isSome := by
  induction fl with
  | nil => rfl
  | cons kv rest ih =>
    rw [flagsInsert_cons]
    by_cases h : kv.1 == wid
    · rw [if_pos h, List.find?_cons, List.find?_cons]
      by_cases h2 : kv.1 == w' <;> simp [h2]
    · rw [if_neg h, List.find?_cons, List.find?_cons]
      by_cases h2 : kv.1 == w' <;> simp [h2, ih]

theorem flagsLookup_flagsInsert_self {fl : List (String × List WarningType)} {wid : String}
    (k : WarningType) (h : (fl.find? (fun kv => kv.1 == wid)).isSome) :
    flagsLookup (flagsInsert fl wid k) wid = flagsLookup fl wid ++ [k] := by
  induction fl with
  | nil => simp at h
  | cons kv rest ih =>
    rw [flagsInsert_cons]
    by_cases hk : kv.1 == wid
    · rw [if_pos hk, flagsLookup_cons, flagsLookup_cons, if_pos hk, if_pos hk]
    · rw [if_neg hk, flagsLookup_cons, flagsLookup_cons, if_neg hk, if_neg hk]
      rw [List.find?_cons] at h
      simp only [hk] at h
      exact ih (by simpa using h)

theorem flagsLookup_flagsInsert_ne {fl : List (String × List WarningType)} {wid w' : String}
    (k : WarningType) (h : w' ≠ wid) :
    flagsLookup (flagsInsert fl wid k) w' = flagsLookup fl w' := by
  induction fl with
  | nil => rfl
  | cons kv rest ih =>
    rw [flagsInsert_cons]
    by_cases hk : kv.1 == wid
    · have hkw : (kv.1 == w') = false := by
        have h1 : kv.1 = wid := by simpa using hk
        rw [h1]
        exact beq_eq_false_iff_ne.mpr (Ne.symm h)
      rw [if_pos hk, flagsLookup_cons, flagsLookup_cons, hkw]
      simp
    · rw [if_neg hk, flagsLookup_cons, flagsLookup_cons]
      by_cases h2 : kv.1 == w' <;> simp [h2, ih]

theorem countD_append (d1 d2 : List WarningDetail) (wid : String) (k : WarningType) :
    countD (d1 ++ d2) wid k = countD d1 wid k + countD d2 wid k := by
  simp [countD]

theorem countD_single (d : WarningDetail) (wid : String) (k : WarningType) :
    countD [d] wid k = if d.workloadID = wid ∧ d.warningType = k then 1 else 0 := by
  simp only [countD, List.countP_cons, List.countP_nil]
  by_cases h1 : d.workloadID = wid <;> by_cases h2 : d.warningType = k <;> simp [h1, h2]

theorem find?_isSome_mono {α : Type} (p : α → Bool) (l1 l2 : List α)
    (h : (l1.find? p).isSome) : ((l1 ++ l2).find? p).isSome := by
  rw [List.find?_append]
  cases hf : l1.find? p <;> simp_all [Option.or]

theorem warnRecord_flags_isSome (pfn : String) (k : WarningType) (cond : Bool)
    (t : Workload) (s : K8sWarnState) (w' : String) :
    (((warnRecord pfn k cond t s).flags).find? (fun kv => kv.1 == w')).isSome =
      ((s.flags).find? (fun kv => kv.1 == w')).isSome := by
  unfold warnRecord
  split
  · exact flagsInsert_find?_isSome _ _ _ _
  · rfl

theorem warnRecord_mono (pfn : String) (k : WarningType) (cond : Bool)
    (t : Workload) (s : K8sWarnState) (wid : String) (k' : WarningType)
    (h : k' ∈ flagsLookup s.flags wid) :
    k' ∈ flagsLookup (warnRecord pfn k cond t s).flags wid := by
  unfold warnRecord
  split
  · by_cases hw : wid = widW t
    · rw [hw] at h ⊢
      by_cases hsome2 : ((s.flags).find? (fun kv => kv.1 == widW t)).isSome
      · rw [flagsLookup_flagsInsert_self k hsome2]
        exact List.mem_append_left _ h
      · rw [flagsInsert_of_none k (Option.not_isSome_iff_eq_none.mp hsome2)]
        exact h
    · rw [flagsLookup_flagsInsert_ne k hw]
      exact h
  · exact h

theorem warnRecord_establish (pfn : String) (k : WarningType) (t : Workload) (s : K8sWarnState)
    (hsome : ((s.flags).find? (fun kv => kv.1 == widW t)).isSome) :
    k ∈ flagsLookup (warnRecord pfn k true t s).flags (widW t) := by
  unfold warnRecord
  split
  · rw [flagsLookup_flagsInsert_self k hsome]
    simp
  · rename_i hcond
    simp at hcond
    exact hcond

theorem warnRecord_count (pfn : String) (k : WarningType) (cond : Bool)
    (t : Workload) (s : K8sWarnState)
    (hsome : ((s.flags).find? (fun kv => kv.1 == widW t)).isSome)
    (hinv : detailsMatchFlags s) :
    detailsMatchFlags (warnRecord pfn k cond t s) := by
  intro wid k'
  unfold warnRecord
  split
  · rename_i hcond
    rw [countD_append, countD_single]
    by_cases hw : wid = widW t
    · rw [hw]
      rw [flagsLookup_flagsInsert_self k hsome]
      by_cases hk : k = k'
      · rw [← hk]
        have h0 : countD s.details (widW t) k = 0 := by
          rw [hinv (widW t) k, if_neg hcond.2]
        rw [h0]
        simp
      · have hmem : (k' ∈ flagsLookup s.flags (widW t) ++ [k]) ↔
            k' ∈ flagsLookup s.flags (widW t) := by
          simp only [List.mem_append, List.mem_singleton]
          constructor
          · intro hh
            rcases hh with hh | hh
            · exact hh
            · exact absurd hh.symm hk
          · intro hh
            exact Or.inl hh
        rw [hinv (widW t) k']
        simp only [hmem]
        simp [hk]
    · rw [flagsLookup_flagsInsert_ne k hw, hinv wid k']
      have hne : ¬ (widW t = wid ∧ k = k') := by
        intro hh
        exact hw hh.1.symm
      simp [hne]
  · exact hinv wid k'

theorem foldl_preserve_mem {α β : Type} (f : β → α → β) (P : β → Prop) (l : List α)
    (hpres : ∀ b, ∀ a ∈ l, P b → P (f b a)) : ∀ b, P b → P (List.foldl f b l) := by
  induction l with
  | nil => exact fun b hb => hb
  | cons x xs ih =>
    intro b hb
    rw [List.foldl_cons]
    exact ih (fun b a ha => hpres b a (by simp [ha])) _ (hpres b x (by simp) hb)

theorem foldl_establish_mem {α β : Type} (f : β → α → β) (P Q : β → Prop) (x : α)
    (hest : ∀ b, Q b → P (f b x)) :
    ∀ l : List α, (∀ b, ∀ a ∈ l, Q b → Q (f b a)) → (∀ b, ∀ a ∈ l, P b → P (f b a)) →
      ∀ b, x ∈ l → Q b → P (List.foldl f b l) := by
  intro l
  induction l with
  | nil =>
    intro _ _ b hx
    simp at hx
  | cons y ys ih =>
    intro hQ hP b hx hQb
    rw [List.foldl_cons]
    rcases List.mem_cons.mp hx with h | h
    · rw [← h]
      exact foldl_preserve_mem f P ys (fun b a ha => hP b a (by simp [ha])) _ (hest b hQb)
    · exact ih (fun b a ha => hQ b a (by simp [ha])) (fun b a ha => hP b a (by simp [ha])) _ h
        (hQ b y (by simp) hQb)

theorem initFlags_extend (ts : List Workload) (acc : List (String × List WarningType)) :
    ∃ ext, initFlags ts acc = acc ++ ext := by
  induction ts generalizing acc with
  | nil => exact ⟨[], by simp [initFlags]⟩
  | cons t rest ih =>
    unfold initFlags
    split
    · exact ih acc
    · obtain ⟨ext, hext⟩ := ih (acc ++ [(widW t, [])])
      exact ⟨(widW t, []) :: ext, by rw [hext, List.append_assoc, List.singleton_append]⟩

theorem initFlags_keys (ts : List Workload) (acc : List (String × List WarningType)) :
    ∀ t ∈ ts, ((initFlags ts acc).find? (fun kv => kv.1 == widW t)).isSome = true := by
  induction ts generalizing acc with
  | nil => simp
  | cons t0 rest ih =>
    intro t ht
    rcases List.mem_cons.mp ht with h | h
    · rw [h]
      unfold initFlags
      split
      · rename_i hsome
        obtain ⟨ext, hext⟩ := initFlags_extend rest acc
        rw [hext]
        exact find?_isSome_mono _ _ _ hsome
      · rename_i hnone
        obtain ⟨ext, hext⟩ := initFlags_extend rest (acc ++ [(widW t0, [])])
        rw [hext]
        apply find?_isSome_mono
        rw [List.find?_append]
        have hn : acc.find? (fun kv => kv.1 == widW t0) = none := by
          cases hf : acc.find? (fun kv => kv.1 == widW t0) with
          | none => rfl
          | some kv => exact absurd (by rw [hf]; rfl) hnone
        rw [hn]
        simp
    · unfold initFlags
      split
      · exact ih acc t h
      · exact ih _ t h

theorem initFlags_lookup_empty (ts : List Workload) (acc : List (String × List WarningType))
    (hacc : ∀ kv ∈ acc, kv.2 = ([] : List WarningType)) (wid : String) :
    flagsLookup (initFlags ts acc) wid = [] := by
  induction ts generalizing acc with
  | nil =>
    simp only [initFlags]
    unfold flagsLookup
    cases h : acc.find? (fun kv => kv.1 == wid) with
    | none => rfl
    | some kv => exact hacc kv (List.mem_of_find?_eq_some h)
  | cons t rest ih =>
    unfold initFlags
    split
    · exact ih acc hacc
    · refine ih _ ?_
      intro kv hkv
      rcases List.mem_append.mp hkv with h | h
      · exact hacc kv h
      · simp only [List.mem_singleton] at h
        rw [h]

theorem warnTargetStep_keys (pfn : String) (hnp hns : Bool) (t : Workload)
    (s : K8sWarnState) (w' : String) :
    (((warnTargetStep pfn hnp hns t s).flags).find? (fun kv => kv.1 == w')).isSome =
      ((s.flags).find? (fun kv => kv.1 == w')).isSome := by
  unfold warnTargetStep
  rw [warnRecord_flags_isSome, warnRecord_flags_isSome]

theorem warnTargetStep_mono (pfn : String) (hnp hns : Bool) (t : Workload)
    (s : K8sWarnState) (wid : String) (k' : WarningType)
    (h : k' ∈ flagsLookup s.flags wid) :
    k' ∈ flagsLookup (warnTargetStep pfn hnp hns t s).flags wid := by
  unfold warnTargetStep
  exact warnRecord_mono _ _ _ _ _ _ _ (warnRecord_mono _ _ _ _ _ _ _ h)

theorem warnTargetStep_count (pfn : String) (hnp hns : Bool) (t : Workload)
    (s : K8sWarnState)
    (hsome : ((s.flags).find? (fun kv => kv.1 == widW t)).isSome)
    (hinv : detailsMatchFlags s) :
    detailsMatchFlags (warnTargetStep pfn hnp hns t s) := by
  unfold warnTargetStep
  apply warnRecord_count
  · rw [warnRecord_flags_isSome]
    exact hsome
  · exact warnRecord_count _ _ _ _ _ hsome hinv

theorem warnTargetStep_establish_noPorts (pfn : String) (hns : Bool) (t : Workload)
    (s : K8sWarnState)
    (hsome : ((s.flags).find? (fun kv => kv.1 == widW t)).isSome) :
    WarningType.noPorts ∈ flagsLookup (warnTargetStep pfn true hns t s).flags (widW t) := by
  unfold warnTargetStep
  exact warnRecord_mono _ _ _ _ _ _ _ (warnRecord_establish pfn WarningType.noPorts t s hsome)

theorem warnTargetStep_establish_noSelector (pfn : String) (hnp : Bool) (t : Workload)
    (s : K8sWarnState)
    (hsome : ((s.flags).find? (fun kv => kv.1 == widW t)).isSome) :
    WarningType.noSelector ∈ flagsLookup (warnTargetStep pfn hnp true t s).flags (widW t) := by
  unfold warnTargetStep
  apply warnRecord_establish
  rw [warnRecord_flags_isSome]
  exact hsome

theorem foldTargets_keys (pfn : String) (hnp hns : Bool) (targets : List Workload)
    (s : K8sWarnState) (h : flagsHaveKeys targets s) :
    flagsHaveKeys targets
      (List.foldl (fun s t => warnTargetStep pfn hnp hns t s) s targets) := by
  apply foldl_preserve_mem _ (flagsHaveKeys targets) targets _ s h
  intro b a ha hb t' ht'
  rw [warnTargetStep_keys]
  exact hb t' ht'

theorem foldTargets_inv (pfn : String) (hnp hns : Bool) (targets : List Workload)
    (s : K8sWarnState) (h : flagsHaveKeys targets s ∧ detailsMatchFlags s) :
    flagsHaveKeys targets
        (List.foldl (fun s t => warnTargetStep pfn hnp hns t s) s targets) ∧
      detailsMatchFlags
        (List.foldl (fun s t => warnTargetStep pfn hnp hns t s) s targets) := by
  apply foldl_preserve_mem _
    (fun s => flagsHaveKeys targets s ∧ detailsMatchFlags s) targets _ s h
  intro b a ha hb
  refine ⟨?_, warnTargetStep_count _ _ _ _ _ (hb.1 a ha) hb.2⟩
  intro t' ht'
  rw [warnTargetStep_keys]
  exact hb.1 t' ht'

theorem foldTargets_mono (pfn : String) (hnp hns : Bool) (targets : List Workload)
    (s : K8sWarnState) (wid : String) (k : WarningType)
    (h : k ∈ flagsLookup s.flags wid) :
    k ∈ flagsLookup
      (List.foldl (fun s t => warnTargetStep pfn hnp hns t s) s targets).flags wid := by
  apply foldl_preserve_mem _
    (fun s => k ∈ flagsLookup s.flags wid) targets _ s h
  intro b a ha hb
  exact warnTargetStep_mono _ _ _ _ _ _ _ hb

theorem foldTargets_establish_noPorts (pfn : String) (hns : Bool)
    (targets : List Workload) (t : Workload) (s : K8sWarnState)
    (ht : t ∈ targets) (hQ : flagsHaveKeys targets s) :
    WarningType.noPorts ∈ flagsLookup
      (List.foldl (fun s t => warnTargetStep pfn true hns t s) s targets).flags (widW t) :=
  foldl_establish_mem (fun s t => warnTargetStep pfn true hns t s)
    (fun s => WarningType.noPorts ∈ flagsLookup s.flags (widW t))
    (flagsHaveKeys targets) t
    (fun b hb => warnTargetStep_establish_noPorts pfn hns t b (hb t ht))
    targets
    (fun b a ha hb t' ht' => by rw [warnTargetStep_keys]; exact hb t' ht')
    (fun b a ha hb => warnTargetStep_mono _ _ _ _ _ _ _ hb)
    s ht hQ

theorem foldTargets_establish_noSelector (pfn : String) (hnp : Bool)
    (targets : List Workload) (t : Workload) (s : K8sWarnState)
    (ht : t ∈ targets) (hQ : flagsHaveKeys targets s) :
    WarningType.noSelector ∈ flagsLookup
      (List.foldl (fun s t => warnTargetStep pfn hnp true t s) s targets).flags (widW t) :=
  foldl_establish_mem (fun s t => warnTargetStep pfn hnp true t s)
    (fun s => WarningType.noSelector ∈ flagsLookup s.flags (widW t))
    (flagsHaveKeys targets) t
    (fun b hb => warnTargetStep_establish_noSelector pfn hnp t b (hb t ht))
    targets
    (fun b a ha hb t' ht' => by rw [warnTargetStep_keys]; exact hb t' ht')
    (fun b a ha hb => warnTargetStep_mono _ _ _ _ _ _ _ hb)
    s ht hQ

theorem processK8sWarnState_inv (np : NetworkPolicy) (ws : List Workload) :
    flagsHaveKeys (findMatchingWorkloads np.ns np.podSelector ws)
        (processK8sWarnState np ws) ∧
      detailsMatchFlags (processK8sWarnState np ws) := by
  unfold processK8sWarnState
  apply foldl_preserve_mem _
    (fun s => flagsHaveKeys (findMatchingWorkloads np.ns np.podSelector ws) s ∧
      detailsMatchFlags s) np.ingress
  · intro b a ha hb
    exact foldTargets_inv _ _ _ _ _ hb
  · constructor
    · exact initFlags_keys _ []
    · intro wid k
      rw [initFlags_lookup_empty _ [] (by simp) wid]
      simp [countD]

theorem processK8sWarnState_noPorts_mem (np : NetworkPolicy) (ws : List Workload)
    (t : Workload) (ht : t ∈ findMatchingWorkloads np.ns np.podSelector ws)
    (r : NetworkPolicyIngressRule) (hr : r ∈ np.ingress) (hp : r.ports = []) :
    WarningType.noPorts ∈ flagsLookup (processK8sWarnState np ws).flags (widW t) := by
  have h := foldl_establish_mem
    (fun s (rule : NetworkPolicyIngressRule) => List.foldl
      (fun s t => warnTargetStep (np.ns ++ "/" ++ np.name) rule.ports.isEmpty
        rule.fromPeers.isEmpty t s)
      s (findMatchingWorkloads np.ns np.podSelector ws))
    (fun s => WarningType.noPorts ∈ flagsLookup s.flags (widW t))
    (flagsHaveKeys (findMatchingWorkloads np.ns np.podSelector ws)) r
    (fun b hb => by
      have hpe : r.ports.isEmpty = true := by simp [hp]
      simp only [hpe]
      exact foldTargets_establish_noPorts _ _ _ t b ht hb)
    np.ingress
    (fun b a ha hb => foldTargets_keys _ _ _ _ _ hb)
    (fun b a ha hb => foldTargets_mono _ _ _ _ _ _ _ hb)
    { flags := initFlags (findMatchingWorkloads np.ns np.podSelector ws) [], details := [] }
    hr (initFlags_keys _ [])
  exact h

theorem processK8sWarnState_noSelector_mem (np : NetworkPolicy) (ws : List Workload)
    (t : Workload) (ht : t ∈ findMatchingWorkloads np.ns np.podSelector ws)
    (r : NetworkPolicyIngressRule) (hr : r ∈ np.ingress) (hp : r.fromPeers = []) :
    WarningType.noSelector ∈ flagsLookup (processK8sWarnState np ws).flags (widW t) := by
  have h := foldl_establish_mem
    (fun s (rule : NetworkPolicyIngressRule) => List.foldl
      (fun s t => warnTargetStep (np.ns ++ "/" ++ np.name) rule.ports.isEmpty
        rule.fromPeers.isEmpty t s)
      s (findMatchingWorkloads np.ns np.podSelector ws))
    (fun s => WarningType.noSelector ∈ flagsLookup s.flags (widW t))
    (flagsHaveKeys (findMatchingWorkloads np.ns np.podSelector ws)) r
    (fun b hb => by
      have hpe : r.fromPeers.isEmpty = true := by simp [hp]
      simp only [hpe]
      exact foldTargets_establish_noSelector _ _ _ t b ht hb)
    np.ingress
    (fun b a ha hb => foldTargets_keys _ _ _ _ _ hb)
    (fun b a ha hb => foldTargets_mono _ _ _ _ _ _ _ hb)
    { flags := initFlags (findMatchingWorkloads np.ns np.podSelector ws) [], details := [] }
    hr (initFlags_keys _ [])
  exact h

theorem wwInsert_nodup (ww : List (String × List WarningType)) (wid : String) (k : WarningType)
    (h : ∀ kv ∈ ww, kv.2.Nodup) : ∀ kv ∈ wwInsert ww wid k, kv.2.Nodup := by
  intro kv hkv
  simp only [wwInsert, List.mem_map] at hkv
  obtain ⟨kv0, hkv0, heq⟩ := hkv
  split at heq
  · rename_i hc
    rw [← heq]
    rw [show kv0.2 ++ [k] = kv0.2.concat k from (List.concat_eq_append _ _).symm]
    exact List.Nodup.concat hc.2 (h kv0 hkv0)
  · rw [← heq]
    exact h kv0 hkv0

theorem mergeFlags_nodup (ww flags : List (String × List WarningType))
    (h : ∀ kv ∈ ww, kv.2.Nodup) : ∀ kv ∈ mergeFlags ww flags, kv.2.Nodup := by
  unfold mergeFlags
  apply foldl_preserve_mem _ (fun ww => ∀ kv ∈ ww, kv.2.Nodup) flags _ ww h
  intro b a ha hb
  apply foldl_preserve_mem _ (fun ww => ∀ kv ∈ ww, kv.2.Nodup) a.2 _ b hb
  intro b2 k2 hk2 hb2
  exact wwInsert_nodup _ _ _ hb2

theorem mergeWarnings_nodup (ws : List Workload) (pols : List Policy) :
    ∀ kv ∈ mergeWarnings ws pols, kv.2.Nodup := by
  unfold mergeWarnings
  refine foldl_preserve_mem _ (fun ww => ∀ kv ∈ ww, kv.2.Nodup) pols ?_ (initWW ws) ?_
  · intro b p hp hb
    cases hpt : p.type
    · cases hk : p.k8sNetworkPolicy
      · simpa [hpt, hk] using hb
      · rename_i np
        simp only [hpt, hk]
        exact mergeFlags_nodup _ _ hb
    · simpa [hpt] using hb
  · intro kv hkv
    simp only [initWW, List.mem_map] at hkv
    obtain ⟨wid, _, hkv⟩ := hkv
    rw [← hkv]
    exact List.nodup_nil

theorem mem_setNodeWarnings {n : Node} {nodes : List Node} {i : Nat} {ks : List WarningType}
    (h : n ∈ setNodeWarnings nodes i ks) : n ∈ nodes ∨ n.warnings = ks := by
  induction nodes generalizing i with
  | nil => simp [setNodeWarnings] at h
  | cons m rest ih =>
    cases i with
    | zero =>
      rcases List.mem_cons.mp h with h1 | h1
      · exact Or.inr (by rw [h1])
      · exact Or.inl (List.mem_cons_of_mem _ h1)
    | succ j =>
      rcases List.mem_cons.mp h with h1 | h1
      · exact Or.inl (by rw [h1]; simp)
      · rcases ih h1 with h2 | h2
        · exact Or.inl (by simp [h2])
        · exact Or.inr h2

theorem mem_applyWarnings {n : Node} {nodes : List Node} {idx : List (String × Nat)}
    {ww : List (String × List WarningType)} (h : n ∈ applyWarnings nodes idx ww) :
    n ∈ nodes ∨ ∃ kv ∈ ww, n.warnings = kv.2 := by
  induction ww generalizing nodes with
  | nil => exact Or.inl h
  | cons kv rest ih =>
    simp only [applyWarnings, List.foldl_cons] at h
    rcases ih h with h1 | ⟨kv2, hkv2, h2⟩
    · by_cases he : kv.2.isEmpty
      · rw [if_pos he] at h1
        exact Or.inl h1
      · rw [if_neg he] at h1
        cases hl : nodeIndexLookup idx kv.1 with
        | none =>
          rw [hl] at h1
          exact Or.inl h1
        | some i =>
          rw [hl] at h1
          rcases mem_setNodeWarnings h1 with h2 | h2
          · exact Or.inl h2
          · exact Or.inr ⟨kv, by simp, h2⟩
    · exact Or.inr ⟨kv2, by simp [hkv2], h2⟩

/-- C4: for every selector-rule policy and every target workload it
selects, an ingress rule with an empty port-constraint list yields exactly
one unrestricted-ports WarningDetail for that (workload, policy), and an
ingress rule with an empty peer list yields exactly one
unrestricted-source WarningDetail — independent of whether any edges are
produced; a policy never records more than one detail per (workload,
kind); and every node's attached warning set holds each kind at most
once across all policies. -/
theorem k8s_warning_aggregation (np : NetworkPolicy) (ws : List Workload)
    (nsl : List (String × Labels)) (pols : List Policy) (sigma : List String) :
    (∀ t ∈ findMatchingWorkloads np.ns np.podSelector ws,
      (∃ r ∈ np.ingress, r.ports = []) →
      countD (processK8sWarnState np ws).details (widW t) WarningType.noPorts = 1) ∧
    (∀ t ∈ findMatchingWorkloads np.ns np.podSelector ws,
      (∃ r ∈ np.ingress, r.fromPeers = []) →
      countD (processK8sWarnState np ws).details (widW t) WarningType.noSelector = 1) ∧
    (∀ wid k, countD (processK8sWarnState np ws).details wid k ≤ 1) ∧
    (∀ n ∈ (BuildWith nsl ws pols sigma).nodes, n.warnings.Nodup) := by
  obtain ⟨hkeys, hinv⟩ := processK8sWarnState_inv np ws
  refine ⟨?_, ?_, ?_, ?_⟩
  · rintro t ht ⟨r, hr, hp⟩
    rw [hinv (widW t) WarningType.noPorts,
      if_pos (processK8sWarnState_noPorts_mem np ws t ht r hr hp)]
  · rintro t ht ⟨r, hr, hp⟩
    rw [hinv (widW t) WarningType.noSelector,
      if_pos (processK8sWarnState_noSelector_mem np ws t ht r hr hp)]
  · intro wid k
    rw [hinv wid k]
    split <;> simp
  · intro n hn
    rcases mem_applyWarnings hn with h1 | ⟨kv, hkv, h2⟩
    · rw [buildNodesList_warnings ws n h1]
      exact List.nodup_nil
    · rw [h2]
      exact mergeWarnings_nodup ws pols kv hkv

/-- Witness for C4: a policy with one rule that has no ports and no peers
targeting one workload yields exactly one detail of each kind. -/
theorem k8s_warning_aggregation_witness :
    countD (processK8sWarnState
      { name := "p", ns := "a", podSelector := { matchLabels := [], matchExpressions := [] }
        ingress := [{ fromPeers := [], ports := [] }] }
      [{ name := "t", ns := "a", kind := "Deployment", labels := [], ports := [] }]).details
      (widW { name := "t", ns := "a", kind := "Deployment", labels := [], ports := [] })
      WarningType.noPorts = 1 ∧
    countD (processK8sWarnState
      { name := "p", ns := "a", podSelector := { matchLabels := [], matchExpressions := [] }
        ingress := [{ fromPeers := [], ports := [] }] }
      [{ name := "t", ns := "a", kind := "Deployment", labels := [], ports := [] }]).details
      (widW { name := "t", ns := "a", kind := "Deployment", labels := [], ports := [] })
      WarningType.noSelector = 1 := by
  constructor
  · exact (k8s_warning_aggregation _ _ [] [] []).1 _ (by decide) (by decide)
  · exact (k8s_warning_aggregation _ _ [] [] []).2.1 _ (by decide) (by decide)

theorem dedupByIDAux_cons_mem {w : Workload} {rest : List Workload} {seen : List String}
    (hw : widW w ∈ seen) : dedupByIDAux (w :: rest) seen = dedupByIDAux rest seen := by
  simp [dedupByIDAux, hw]

theorem dedupByIDAux_cons_not_mem {w : Workload} {rest : List Workload} {seen : List String}
    (hw : widW w ∉ seen) :
    dedupByIDAux (w :: rest) seen = w :: dedupByIDAux rest (widW w :: seen) := by
  simp [dedupByIDAux, hw]

theorem dedupByIDAux_nodup (l : List Workload) (seen : List String) :
    ((dedupByIDAux l seen).map widW).Nodup ∧
      ∀ x ∈ (dedupByIDAux l seen).map widW, x ∉ seen := by
  induction l generalizing seen with
  | nil => exact ⟨List.nodup_nil, by simp [dedupByIDAux]⟩
  | cons w rest ih =>
    by_cases hw : widW w ∈ seen
    · rw [dedupByIDAux_cons_mem hw]
      exact ih seen
    · rw [dedupByIDAux_cons_not_mem hw]
      obtain ⟨hnd, hnin⟩ := ih (widW w :: seen)
      constructor
      · rw [List.map_cons]
        refine List.Nodup.cons (fun hmem => ?_) hnd
        exact (hnin _ hmem) (List.mem_cons_self _ _)
      · intro x hx
        rw [List.map_cons, List.mem_cons] at hx
        rcases hx with hx | hx
        · rw [hx]
          exact hw
        · exact fun hxs => (hnin x hx) (List.mem_cons_of_mem _ hxs)

theorem dedupByIDAux_mem (l : List Workload) (seen : List String) (x : String) :
    x ∈ (dedupByIDAux l seen).map widW ↔ (x ∈ l.map widW ∧ x ∉ seen) := by
  induction l generalizing seen with
  | nil => simp [dedupByIDAux]
  | cons w rest ih =>
    by_cases hw : widW w ∈ seen
    · rw [dedupByIDAux_cons_mem hw, ih seen, List.map_cons, List.mem_cons]
      constructor
      · rintro ⟨h1, h2⟩
        exact ⟨Or.inr h1, h2⟩
      · rintro ⟨h1 | h1, h2⟩
        · subst h1
          exact absurd hw h2
        · exact ⟨h1, h2⟩
    · rw [dedupByIDAux_cons_not_mem hw]
      simp only [List.map_cons, List.mem_cons, ih (widW w :: seen)]
      constructor
      · rintro (h1 | ⟨h1, h2⟩)
        · subst h1
          exact ⟨Or.inl rfl, hw⟩
        · exact ⟨Or.inr h1, fun hx => h2 (Or.inr hx)⟩
      · rintro ⟨h1 | h1, h2⟩
        · exact Or.inl h1
        · by_cases hx : x = widW w
          · exact Or.inl hx
          · refine Or.inr ⟨h1, fun hmem => ?_⟩
            rcases hmem with h3 | h3
            · exact hx h3
            · exact h2 h3

theorem dedupByID_map_wid_perm {l1 l2 : List Workload} (h : List.Perm l1 l2) :
    List.Perm ((dedupByID l1).map widW) ((dedupByID l2).map widW) := by
  unfold dedupByID
  rw [List.perm_ext_iff_of_nodup (dedupByIDAux_nodup l1 []).1 (dedupByIDAux_nodup l2 []).1]
  intro a
  rw [dedupByIDAux_mem, dedupByIDAux_mem]
  simp only [List.not_mem_nil, not_false_iff, and_true]
  exact (h.map widW).mem_iff

theorem getNamespacesForPeer_perm (nsl : List (String × Labels)) (pns : String)
    (peer : NetworkPolicyPeer) {s1 s2 : List String} (h : List.Perm s1 s2) :
    List.Perm (getNamespacesForPeer nsl pns peer s1) (getNamespacesForPeer nsl pns peer s2) := by
  rcases hsel : peer.namespaceSelector with _ | sel <;>
    simp only [getNamespacesForPeer, hsel]
  · exact List.Perm.refl _
  · split
    · exact h
    · exact h.filter _

theorem findSourceWorkloads_wid_perm (nsl : List (String × Labels)) (pns : String)
    (fromPeers : List NetworkPolicyPeer) (ws : List Workload) {s1 s2 : List String}
    (h : List.Perm s1 s2) :
    List.Perm ((findSourceWorkloads nsl pns fromPeers ws s1).map widW)
      ((findSourceWorkloads nsl pns fromPeers ws s2).map widW) := by
  unfold findSourceWorkloads
  split
  · exact dedupByID_map_wid_perm (h.flatMap_right _)
  · refine dedupByID_map_wid_perm (List.Perm.flatMap_left _ ?_)
    intro peer hpeer
    exact (getNamespacesForPeer_perm nsl pns peer h).flatMap_right _

theorem findIstioSourceWorkloads_wid_perm (fromList : List (Option IstioFromEntry))
    (ws : List Workload) {s1 s2 : List String} (h : List.Perm s1 s2) :
    List.Perm ((findIstioSourceWorkloads fromList ws s1).map widW)
      ((findIstioSourceWorkloads fromList ws s2).map widW) := by
  unfold findIstioSourceWorkloads
  split
  · exact dedupByID_map_wid_perm (h.flatMap_right _)
  · refine dedupByID_map_wid_perm (List.Perm.flatMap_left _ ?_)
    intro f hf
    rcases f with _ | fe
    · exact List.Perm.refl _
    · rcases hs : fe.source with _ | source <;> simp only [hs]
      · exact List.Perm.refl _
      · exact List.Perm.append_left _ (by split <;> [exact h.flatMap_right _; exact List.Perm.refl _])

theorem processK8sEdges_perm (nsl : List (String × Labels)) (policy : NetworkPolicy)
    (ws : List Workload) {s1 s2 : List String} (h : List.Perm s1 s2) :
    List.Perm (processK8sEdges nsl policy ws s1) (processK8sEdges nsl policy ws s2) := by
  unfold processK8sEdges
  refine List.Perm.flatMap_left _ ?_
  intro ir hir
  refine List.Perm.flatMap_left _ ?_
  intro t ht
  have key : ∀ (src : List Workload),
      (src.flatMap (fun s =>
        if widW s = widW t then []
        else (getAllowedPorts t ir.2.ports).map (mkK8sEdge policy ir.2 ir.1 (widW s) (widW t))))
      = ((src.map widW).flatMap (fun x =>
        if x = widW t then []
        else (getAllowedPorts t ir.2.ports).map (mkK8sEdge policy ir.2 ir.1 x (widW t)))) :=
    fun src => (List.flatMap_map widW (fun x =>
      if x = widW t then []
      else (getAllowedPorts t ir.2.ports).map (mkK8sEdge policy ir.2 ir.1 x (widW t))) src).symm
  rw [key, key]
  exact (findSourceWorkloads_wid_perm nsl policy.ns ir.2.fromPeers ws h).flatMap_right _

theorem processIstioAuthPolicy_perm (policy : IstioAuthorizationPolicy)
    (ws : List Workload) {s1 s2 : List String} (h : List.Perm s1 s2) :
    List.Perm (processIstioAuthPolicy policy ws s1) (processIstioAuthPolicy policy ws s2) := by
  unfold processIstioAuthPolicy
  refine List.Perm.flatMap_left _ ?_
  intro ir hir
  rcases ir.2 with _ | rule
  · exact List.Perm.refl _
  · refine List.Perm.flatMap_left _ ?_
    intro t ht
    have key : ∀ (src : List Workload),
        (src.flatMap (fun s =>
          if widW s = widW t then []
          else (if (getIstioAllowedPorts rule.toList).isEmpty
                then t.ports.map (fun p => p.containerPort)
                else getIstioAllowedPorts rule.toList).map
            (mkIstioEdge policy rule ir.1 (widW s) (widW t))))
        = ((src.map widW).flatMap (fun x =>
          if x = widW t then []
          else (if (getIstioAllowedPorts rule.toList).isEmpty
                then t.ports.map (fun p => p.containerPort)
                else getIstioAllowedPorts rule.toList).map
            (mkIstioEdge policy rule ir.1 x (widW t)))) :=
      fun src => (List.flatMap_map widW (fun x =>
        if x = widW t then []
        else (if (getIstioAllowedPorts rule.toList).isEmpty
              then t.ports.map (fun p => p.containerPort)
              else getIstioAllowedPorts rule.toList).map
          (mkIstioEdge policy rule ir.1 x (widW t))) src).symm
    rw [key, key]
    exact (findIstioSourceWorkloads_wid_perm rule.fromList ws h).flatMap_right _

theorem policyEdges_perm (nsl : List (String × Labels)) (ws : List Workload)
    (p : Policy) {s1 s2 : List String} (h : List.Perm s1 s2) :
    List.Perm (policyEdges nsl ws s1 p) (policyEdges nsl ws s2 p) := by
  rcases hpt : p.type <;> simp only [policyEdges, hpt]
  · rcases hk : p.k8sNetworkPolicy with _ | np <;> simp only [hk]
    · exact List.Perm.refl _
    · exact processK8sEdges_perm nsl np ws h
  · rcases hk : p.istioAuthPolicy with _ | ip <;> simp only [hk]
    · exact List.Perm.refl _
    · exact processIstioAuthPolicy_perm ip ws h

theorem numberEdges_map_eraseId (es : List Edge) :
    (numberEdges es).map eraseId = es.map eraseId := by
  unfold numberEdges
  rw [List.map_map]
  have h1 : (eraseId ∘ fun ie : Nat × Edge => { ie.2 with id := "edge-" ++ itoa (ie.1 : Int) }) =
      fun ie : Nat × Edge => eraseId ie.2 := by
    funext ie
    rfl
  rw [h1]
  have h2 : (fun ie : Nat × Edge => eraseId ie.2) = eraseId ∘ Prod.snd := rfl
  rw [h2, ← List.map_map, List.enum_map_snd]

/-- C5: Build is deterministic in node and edge content: the only
nondeterminism between two runs on identical inputs is the randomized
iteration order of the workloadsByNS map keys, and for any two orders that
are permutations of each other the built graphs have identical node lists,
identical warning-detail lists, and edge lists that are permutations of
each other once the assignment-order edge ids are erased. -/
theorem build_rebuild_deterministic (nsl : List (String × Labels)) (ws : List Workload)
    (pols : List Policy) {s1 s2 : List String} (h : List.Perm s1 s2) :
    (BuildWith nsl ws pols s1).nodes = (BuildWith nsl ws pols s2).nodes ∧
    List.Perm ((BuildWith nsl ws pols s1).edges.map eraseId)
      ((BuildWith nsl ws pols s2).edges.map eraseId) ∧
    (BuildWith nsl ws pols s1).warningDetails = (BuildWith nsl ws pols s2).warningDetails := by
  refine ⟨rfl, ?_, rfl⟩
  show List.Perm ((numberEdges (pols.flatMap (policyEdges nsl ws s1))).map eraseId)
    ((numberEdges (pols.flatMap (policyEdges nsl ws s2))).map eraseId)
  rw [numberEdges_map_eraseId, numberEdges_map_eraseId]
  exact (List.Perm.flatMap_left _ (fun p hp => policyEdges_perm nsl ws p h)).map eraseId

/-- Witness for C5: two builds of the same two-namespace input under the
two opposite key orders. -/
theorem build_rebuild_deterministic_witness :
    (BuildWith []
        [{ name := "w1", ns := "a", kind := "Deployment", labels := [], ports := [] },
         { name := "w2", ns := "b", kind := "Deployment", labels := [],
           ports := [{ name := "", containerPort := 80, protocol := "TCP" }] }]
        [{ name := "p", ns := "b", type := PolicyType.k8sNetworkPolicy
           k8sNetworkPolicy := some
             { name := "p", ns := "b"
               podSelector := { matchLabels := [], matchExpressions := [] }
               ingress := [{ fromPeers := [{ podSelector := none
                                             namespaceSelector := some { matchLabels := [], matchExpressions := [] }
                                             ipBlock := none }]
                             ports := [] }] }
           istioAuthPolicy := none }]
        ["a", "b"]).nodes =
      (BuildWith []
        [{ name := "w1", ns := "a", kind := "Deployment", labels := [], ports := [] },
         { name := "w2", ns := "b", kind := "Deployment", labels := [],
           ports := [{ name := "", containerPort := 80, protocol := "TCP" }] }]
        [{ name := "p", ns := "b", type := PolicyType.k8sNetworkPolicy
           k8sNetworkPolicy := some
             { name := "p", ns := "b"
               podSelector := { matchLabels := [], matchExpressions := [] }
               ingress := [{ fromPeers := [{ podSelector := none
                                             namespaceSelector := some { matchLabels := [], matchExpressions := [] }
                                             ipBlock := none }]
                             ports := [] }] }
           istioAuthPolicy := none }]
        ["b", "a"]).nodes ∧
    List.Perm
      ((BuildWith []
        [{ name := "w1", ns := "a", kind := "Deployment", labels := [], ports := [] },
         { name := "w2", ns := "b", kind := "Deployment", labels := [],
           ports := [{ name := "", containerPort := 80, protocol := "TCP" }] }]
        [{ name := "p", ns := "b", type := PolicyType.k8sNetworkPolicy
           k8sNetworkPolicy := some
             { name := "p", ns := "b"
               podSelector := { matchLabels := [], matchExpressions := [] }
               ingress := [{ fromPeers := [{ podSelector := none
                                             namespaceSelector := some { matchLabels := [], matchExpressions := [] }
                                             ipBlock := none }]
                             ports := [] }] }
           istioAuthPolicy := none }]
        ["a", "b"]).edges.map eraseId)
      ((BuildWith []
        [{ name := "w1", ns := "a", kind := "Deployment", labels := [], ports := [] },
         { name := "w2", ns := "b", kind := "Deployment", labels := [],
           ports := [{ name := "", containerPort := 80, protocol := "TCP" }] }]
        [{ name := "p", ns := "b", type := PolicyType.k8sNetworkPolicy
           k8sNetworkPolicy := some
             { name := "p", ns := "b"
               podSelector := { matchLabels := [], matchExpressions := [] }
               ingress := [{ fromPeers := [{ podSelector := none
                                             namespaceSelector := some { matchLabels := [], matchExpressions := [] }
                                             ipBlock := none }]
                             ports := [] }] }
           istioAuthPolicy := none }]
        ["b", "a"]).edges.map eraseId) ∧
    (BuildWith []
        [{ name := "w1", ns := "a", kind := "Deployment", labels := [], ports := [] },
         { name := "w2", ns := "b", kind := "Deployment", labels := [],
           ports := [{ name := "", containerPort := 80, protocol := "TCP" }] }]
        [{ name := "p", ns := "b", type := PolicyType.k8sNetworkPolicy
           k8sNetworkPolicy := some
             { name := "p", ns := "b"
               podSelector := { matchLabels := [], matchExpressions := [] }
               ingress := [{ fromPeers := [{ podSelector := none
                                             namespaceSelector := some { matchLabels := [], matchExpressions := [] }
                                             ipBlock := none }]
                             ports := [] }] }
           istioAuthPolicy := none }]
        ["a", "b"]).warningDetails =
      (BuildWith []
        [{ name := "w1", ns := "a", kind := "Deployment", labels := [], ports := [] },
         { name := "w2", ns := "b", kind := "Deployment", labels := [],
           ports := [{ name := "", containerPort := 80, protocol := "TCP" }] }]
        [{ name := "p", ns := "b", type := PolicyType.k8sNetworkPolicy
           k8sNetworkPolicy := some
             { name := "p", ns := "b"
               podSelector := { matchLabels := [], matchExpressions := [] }
               ingress := [{ fromPeers := [{ podSelector := none
                                             namespaceSelector := some { matchLabels := [], matchExpressions := [] }
                                             ipBlock := none }]
                             ports := [] }] }
           istioAuthPolicy := none }]
        ["b", "a"]).warningDetails := by
  exact build_rebuild_deterministic _ _ _ (by decide)

theorem sep_split {sep : Char} : ∀ {a c b d : List Char}, sep ∉ a → sep ∉ c →
    a ++ sep :: b = c ++ sep :: d → a = c ∧ b = d := by
  intro a
  induction a with
  | nil =>
    intro c b d _ hc h
    cases c with
    | nil => simpa using h
    | cons x xs =>
      rw [List.nil_append, List.cons_append] at h
      obtain ⟨h1, h2⟩ := List.cons.inj h
      exact absurd (h1 ▸ List.mem_cons_self x xs) hc
  | cons x xs ih =>
    intro c b d ha hc h
    cases c with
    | nil =>
      rw [List.cons_append, List.nil_append] at h
      obtain ⟨h1, h2⟩ := List.cons.inj h
      exact absurd (h1 ▸ List.mem_cons_self x xs) ha
    | cons y ys =>
      rw [List.cons_append, List.cons_append] at h
      obtain ⟨h1, h2⟩ := List.cons.inj h
      have hxs : sep ∉ xs := fun hm => ha (List.mem_cons_of_mem _ hm)
      have hys : sep ∉ ys := fun hm => hc (List.mem_cons_of_mem _ hm)
      obtain ⟨e1, e2⟩ := ih hxs hys h2
      exact ⟨by rw [h1, e1], e2⟩

theorem WorkloadID_data (ns name : String) :
    (WorkloadID ns name).data = ns.data ++ '/' :: name.data := by
  show (ns ++ "/" ++ name).data = _
  have hs : "/".data = ['/'] := rfl
  simp [String.data_append, hs]

theorem WorkloadID_inj {ns1 name1 ns2 name2 : String}
    (h1 : '/' ∉ ns1.data) (h2 : '/' ∉ ns2.data)
    (h : WorkloadID ns1 name1 = WorkloadID ns2 name2) : ns1 = ns2 ∧ name1 = name2 := by
  have hd := congrArg String.data h
  rw [WorkloadID_data, WorkloadID_data] at hd
  obtain ⟨e1, e2⟩ := sep_split h1 h2 hd
  exact ⟨String.ext e1, String.ext e2⟩

theorem PortID_data (wid : String) (n : Int) (pr : String) :
    (PortID wid n pr).data = wid.data ++ ':' :: (pr.data ++ '/' :: (itoa n).data) := by
  show (wid ++ ":" ++ pr ++ "/" ++ itoa n).data = _
  have hs : "/".data = ['/'] := rfl
  have hc : ":".data = [':'] := rfl
  simp [String.data_append, hs, hc]

theorem colon_not_mem_WorkloadID {ns name : String} (h1 : ':' ∉ ns.data)
    (h2 : ':' ∉ name.data) : ':' ∉ (WorkloadID ns name).data := by
  rw [WorkloadID_data]
  intro hm
  rcases List.mem_append.mp hm with hm | hm
  · exact h1 hm
  · rcases List.mem_cons.mp hm with hm | hm
    · exact absurd hm (by decide)
    · exact h2 hm

theorem PortID_ne_WorkloadID {ns name wid : String} {n : Int} {pr : String}
    (h1 : ':' ∉ ns.data) (h2 : ':' ∉ name.data) :
    WorkloadID ns name ≠ PortID wid n pr := by
  intro h
  have hd := congrArg String.data h
  rw [WorkloadID_data, PortID_data] at hd
  have hcol : ':' ∈ wid.data ++ ':' :: (pr.data ++ '/' :: (itoa n).data) := by
    rw [List.mem_append]
    exact Or.inr (List.mem_cons_self _ _)
  rw [← hd] at hcol
  exact colon_not_mem_WorkloadID h1 h2 (by rw [WorkloadID_data]; exact hcol)

theorem PortID_inj {wid1 wid2 : String} {n1 n2 : Int} {pr1 pr2 : String}
    (hw1 : ':' ∉ wid1.data) (hw2 : ':' ∉ wid2.data)
    (hp1 : '/' ∉ pr1.data) (hp2 : '/' ∉ pr2.data)
    (h : PortID wid1 n1 pr1 = PortID wid2 n2 pr2) :
    wid1 = wid2 ∧ pr1 = pr2 ∧ itoa n1 = itoa n2 := by
  have hd := congrArg String.data h
  rw [PortID_data, PortID_data] at hd
  obtain ⟨e1, e2⟩ := sep_split hw1 hw2 hd
  obtain ⟨e3, e4⟩ := sep_split hp1 hp2 e2
  exact ⟨String.ext e1, String.ext e3, String.ext e4⟩

theorem natDigitsAux_stable : ∀ (f1 : Nat), ∀ (f2 n : Nat), n ≤ f1 → n ≤ f2 →
    natDigitsAux f1 n = natDigitsAux f2 n := by
  intro f1
  induction f1 with
  | zero =>
    intro f2 n h1 h2
    have hn : n = 0 := Nat.le_zero.mp h1
    subst hn
    cases f2 <;> rfl
  | succ f ih =>
    intro f2 n h1 h2
    cases n with
    | zero => cases f2 <;> rfl
    | succ m =>
      cases f2 with
      | zero => omega
      | succ g =>
        show natDigitsAux (f + 1) (m + 1) = natDigitsAux (g + 1) (m + 1)
        simp only [natDigitsAux]
        congr 1
        have hdiv := Nat.div_lt_self (Nat.succ_pos m) (by decide : 1 < 10)
        exact ih g ((m + 1) / 10) (by omega) (by omega)

theorem natDigits_succ (n : Nat) (h : n ≠ 0) :
    natDigits n = natDigits (n / 10) ++ [Char.ofNat (48 + n % 10)] := by
  cases n with
  | zero => exact absurd rfl h
  | succ m =>
    show natDigitsAux (m + 1) (m + 1) = _
    simp only [natDigitsAux]
    congr 1
    have hdiv := Nat.div_lt_self (Nat.succ_pos m) (by decide : 1 < 10)
    exact natDigitsAux_stable m ((m + 1) / 10) ((m + 1) / 10) (by omega) (Nat.le_refl _)

theorem natDigits_ne_nil {n : Nat} (h : n ≠ 0) : natDigits n ≠ [] := by
  rw [natDigits_succ n h]
  simp

theorem digitChar_inj {r s : Nat} (hr : r < 10) (hs : s < 10)
    (h : Char.ofNat (48 + r) = Char.ofNat (48 + s)) : r = s := by
  interval_cases r <;> interval_cases s <;> revert h <;> decide

theorem natDigits_inj (a : Nat) : ∀ b, a ≠ 0 → b ≠ 0 → natDigits a = natDigits b → a = b := by
  induction a using Nat.strong_induction_on with
  | _ a ih =>
    intro b ha hb h
    rw [natDigits_succ a ha, natDigits_succ b hb] at h
    have hlen : (natDigits (a / 10)).length = (natDigits (b / 10)).length := by
      have hl := congrArg List.length h
      simp only [List.length_append, List.length_cons, List.length_nil] at hl
      omega
    obtain ⟨h1, h2⟩ := List.append_inj h hlen
    have h3 : a % 10 = b % 10 := by
      have hc : Char.ofNat (48 + a % 10) = Char.ofNat (48 + b % 10) := by
        simpa using h2
      exact digitChar_inj (Nat.mod_lt _ (by decide)) (Nat.mod_lt _ (by decide)) hc
    by_cases hq : a / 10 = 0
    · have hq2 : b / 10 = 0 := by
        by_contra hq2
        apply natDigits_ne_nil hq2
        rw [← h1, hq]
        rfl
      omega
    · have hq2 : b / 10 ≠ 0 := by
        intro hq2
        apply natDigits_ne_nil hq
        rw [h1, hq2]
        rfl
      have := ih (a / 10) (Nat.div_lt_self (Nat.pos_of_ne_zero ha) (by decide)) (b / 10) hq hq2 h1
      omega

theorem natDigits_eq_zero_char {m : Nat} (h : natDigits m = ['0']) : m = 0 := by
  by_contra hm
  rw [natDigits_succ m hm] at h
  have hlen := congrArg List.length h
  simp only [List.length_append, List.length_cons, List.length_nil] at hlen
  have hpre : natDigits (m / 10) = [] := List.eq_nil_of_length_eq_zero (by omega)
  rw [hpre, List.nil_append] at h
  have hchar : Char.ofNat (48 + m % 10) = Char.ofNat (48 + 0) := by
    have := List.cons.inj h
    simpa using this.1
  have hmod : m % 10 = 0 := digitChar_inj (Nat.mod_lt _ (by decide)) (by decide) hchar
  have hdiv : m / 10 = 0 := by
    by_contra hq
    exact natDigits_ne_nil hq hpre
  omega

theorem itoa_inj_nonneg {a b : Int} (ha : 0 ≤ a) (hb : 0 ≤ b) (h : itoa a = itoa b) : a = b := by
  unfold itoa at h
  by_cases h1 : a = 0 <;> by_cases h2 : b = 0
  · omega
  · rw [if_pos h1, if_neg h2, if_neg (by omega : ¬ b < 0)] at h
    have hd : ['0'] = natDigits b.toNat := congrArg String.data h
    have := natDigits_eq_zero_char hd.symm
    omega
  · rw [if_neg h1, if_neg (by omega : ¬ a < 0), if_pos h2] at h
    have hd : natDigits a.toNat = ['0'] := congrArg String.data h
    have := natDigits_eq_zero_char hd
    omega
  · rw [if_neg h1, if_neg (by omega : ¬ a < 0), if_neg h2, if_neg (by omega : ¬ b < 0)] at h
    have hd : natDigits a.toNat = natDigits b.toNat := congrArg String.data h
    have := natDigits_inj a.toNat b.toNat (by omega) (by omega) hd
    omega

theorem group_nodup (w : Workload)
    (hpnd : (w.ports.map (fun p => (p.containerPort, effectiveProtocol p))).Nodup)
    (hns : sepFree w.ns) (hname : sepFree w.name)
    (hpr : ∀ p ∈ w.ports, sepFree (effectiveProtocol p))
    (hpos : ∀ p ∈ w.ports, 0 ≤ p.containerPort) :
    (widW w :: w.ports.map (fun p =>
      PortID (widW w) p.containerPort (effectiveProtocol p))).Nodup := by
  refine List.Nodup.cons ?_ ?_
  · intro hmem
    rw [List.mem_map] at hmem
    obtain ⟨p, hp, hpe⟩ := hmem
    exact PortID_ne_WorkloadID hns.2 hname.2 hpe.symm
  · have hrw : (w.ports.map (fun p => PortID (widW w) p.containerPort (effectiveProtocol p)))
        = ((w.ports.map (fun p => (p.containerPort, effectiveProtocol p))).map
            (fun q => PortID (widW w) q.1 q.2)) := by
      rw [List.map_map]
      rfl
    rw [hrw]
    refine List.Nodup.map_on ?_ hpnd
    intro x hx y hy hxy
    rw [List.mem_map] at hx hy
    obtain ⟨p, hp, hxp⟩ := hx
    obtain ⟨q, hq, hyq⟩ := hy
    have hwidc : ':' ∉ (widW w).data := colon_not_mem_WorkloadID hns.2 hname.2
    subst hxp
    subst hyq
    obtain ⟨_, hpr2, hit⟩ := PortID_inj hwidc hwidc (hpr p hp).1 (hpr q hq).1 hxy
    have hn : p.containerPort = q.containerPort :=
      itoa_inj_nonneg (hpos p hp) (hpos q hq) hit
    simp [hn, hpr2]

theorem group_mem_id_eq {w w' : Workload} {x : String}
    (hnsw : sepFree w.ns) (hnamew : sepFree w.name)
    (hnsw' : sepFree w'.ns) (hnamew' : sepFree w'.name)
    (hx : x ∈ widW w :: w.ports.map (fun p =>
      PortID (widW w) p.containerPort (effectiveProtocol p)))
    (hx' : x ∈ widW w' :: w'.ports.map (fun p =>
      PortID (widW w') p.containerPort (effectiveProtocol p))) :
    w.ns = w'.ns ∧ w.name = w'.name := by
  have hcw : ':' ∉ (widW w).data := colon_not_mem_WorkloadID hnsw.2 hnamew.2
  have hcw' : ':' ∉ (widW w').data := colon_not_mem_WorkloadID hnsw'.2 hnamew'.2
  rcases List.mem_cons.mp hx with h1 | h1 <;> rcases List.mem_cons.mp hx' with h2 | h2
  · exact WorkloadID_inj hnsw.1 hnsw'.1 (h1.symm.trans h2)
  · obtain ⟨p, hp, hpe⟩ := List.mem_map.mp h2
    exact absurd (h1.symm.trans hpe.symm) (PortID_ne_WorkloadID hnsw.2 hnamew.2)
  · obtain ⟨p, hp, hpe⟩ := List.mem_map.mp h1
    exact absurd (h2.symm.trans hpe.symm) (PortID_ne_WorkloadID hnsw'.2 hnamew'.2)
  · obtain ⟨p, hp, hpe⟩ := List.mem_map.mp h1
    obtain ⟨q, hq, hqe⟩ := List.mem_map.mp h2
    have hpq : PortID (widW w) p.containerPort (effectiveProtocol p)
        = PortID (widW w') q.containerPort (effectiveProtocol q) := hpe.trans hqe.symm
    have hwid : widW w = widW w' := by
      have hd := congrArg String.data hpq
      rw [PortID_data, PortID_data] at hd
      exact String.ext (sep_split hcw hcw' hd).1
    exact WorkloadID_inj hnsw.1 hnsw'.1 hwid

theorem nodeIdsList_nodup (ws : List Workload)
    (hids : (ws.map (fun w => (w.ns, w.name))).Nodup)
    (hports : ∀ w ∈ ws, ((w.ports.map (fun p => (p.containerPort, effectiveProtocol p))).Nodup))
    (hsep : ∀ w ∈ ws, sepFree w.ns ∧ sepFree w.name ∧ ∀ p ∈ w.ports, sepFree (effectiveProtocol p))
    (hpos : ∀ w ∈ ws, ∀ p ∈ w.ports, 0 ≤ p.containerPort) :
    (ws.flatMap (fun w => widW w :: w.ports.map (fun p =>
      PortID (widW w) p.containerPort (effectiveProtocol p)))).Nodup := by
  induction ws with
  | nil => simp
  | cons w rest ih =>
    rw [List.flatMap_cons, List.nodup_append]
    obtain ⟨hsw1, hsw2, hsw3⟩ := hsep w (by simp)
    have hids2 := hids
    rw [List.map_cons] at hids2
    obtain ⟨hnotin, htail⟩ := List.nodup_cons.mp hids2
    refine ⟨?_, ?_, ?_⟩
    · exact group_nodup w (hports w (by simp)) hsw1 hsw2 hsw3 (hpos w (by simp))
    · exact ih htail
        (fun w2 h2 => hports w2 (by simp [h2]))
        (fun w2 h2 => hsep w2 (by simp [h2]))
        (fun w2 h2 => hpos w2 (by simp [h2]))
    · intro x hx hx'
      rw [List.mem_flatMap] at hx'
      obtain ⟨w', hw', hxw'⟩ := hx'
      obtain ⟨hsw1', hsw2', _⟩ := hsep w' (by simp [hw'])
      have hide := group_mem_id_eq hsw1 hsw2 hsw1' hsw2' hx hxw'
      apply hnotin
      rw [List.mem_map]
      exact ⟨w', hw', by rw [← hide.1, ← hide.2]⟩

theorem buildNodesList_map_id (ws : List Workload) :
    (buildNodesList ws).map (fun n => n.id)
      = ws.flatMap (fun w => widW w :: w.ports.map (fun p =>
          PortID (widW w) p.containerPort (effectiveProtocol p))) := by
  induction ws with
  | nil => rfl
  | cons w rest ih =>
    simp only [buildNodesList, List.flatMap_cons, List.map_append, List.map_cons,
      List.map_map] at ih ⊢
    rw [ih]
    rfl

/-- C10 (counterexample): the claim asserts that distinct (namespace,
name) identities and per-workload distinct (port, effective protocol)
pairs suffice for pairwise-distinct node IDs.  With the workloads
(a, "b:TCP/80") with no ports and (a, "b") declaring TCP/80 — which
satisfy both hypotheses — the workload-node ID of the first equals the
port-node ID of the second ("a/b:TCP/80"), so the built graph has a
duplicate node ID. -/
theorem node_id_collision_counterexample :
    ((([{ name := "b:TCP/80", ns := "a", kind := "Deployment", labels := [], ports := [] },
        { name := "b", ns := "a", kind := "Deployment", labels := [],
          ports := [{ name := "", containerPort := 80, protocol := "TCP" }] }] : List Workload).map
       (fun w => (w.ns, w.name))).Nodup) ∧
    (∀ w ∈ ([{ name := "b:TCP/80", ns := "a", kind := "Deployment", labels := [], ports := [] },
        { name := "b", ns := "a", kind := "Deployment", labels := [],
          ports := [{ name := "", containerPort := 80, protocol := "TCP" }] }] : List Workload),
      ((w.ports.map (fun p => (p.containerPort, effectiveProtocol p))).Nodup)) ∧
    ¬ (((Build []
        [{ name := "b:TCP/80", ns := "a", kind := "Deployment", labels := [], ports := [] },
         { name := "b", ns := "a", kind := "Deployment", labels := [],
           ports := [{ name := "", containerPort := 80, protocol := "TCP" }] }]
        []).nodes.map (fun n => n.id)).Nodup) := by
  exact ⟨by decide, by decide, by decide⟩

/-- C10 (amended): under the claim's hypotheses plus the additional
requirement that the id separator characters do not occur in the inputs —
namespaces, names, and effective protocols contain neither a slash nor a
colon, and port numbers are nonnegative — all node IDs of the built graph
are pairwise distinct, each workload node ID being namespace/name and each
port node ID being workloadID:protocol/port. -/
theorem build_node_ids_nodup (nsl : List (String × Labels)) (ws : List Workload)
    (pols : List Policy) (sigma : List String)
    (hids : (ws.map (fun w => (w.ns, w.name))).Nodup)
    (hports : ∀ w ∈ ws, ((w.ports.map (fun p => (p.containerPort, effectiveProtocol p))).Nodup))
    (hsep : ∀ w ∈ ws, sepFree w.ns ∧ sepFree w.name ∧ ∀ p ∈ w.ports, sepFree (effectiveProtocol p))
    (hpos : ∀ w ∈ ws, ∀ p ∈ w.ports, 0 ≤ p.containerPort) :
    ((BuildWith nsl ws pols sigma).nodes.map (fun n => n.id)).Nodup := by
  have hmap : (BuildWith nsl ws pols sigma).nodes.map (fun n => n.id)
      = (buildNodesList ws).map (fun n => n.id) := by
    have hstrip := applyWarnings_map_strip (buildNodesList ws) (buildNodeIndex ws 0)
      (mergeWarnings ws pols)
    have hcast := congrArg (List.map (fun n => n.id)) hstrip
    simpa [List.map_map, Function.comp, stripWarnings] using hcast
  rw [hmap, buildNodesList_map_id]
  exact nodeIdsList_nodup ws hids hports hsep hpos

/-- Witness for C10 at the frontend/backend input. -/
theorem build_node_ids_nodup_witness :
    ((([{ name := "frontend", ns := "default", kind := "Deployment", labels := [], ports := [] },
        { name := "backend", ns := "default", kind := "Deployment", labels := [],
          ports := [{ name := "http", containerPort := 8080, protocol := "TCP" }] }] : List Workload).map
       (fun w => (w.ns, w.name))).Nodup) ∧
    ((BuildWith []
        [{ name := "frontend", ns := "default", kind := "Deployment", labels := [], ports := [] },
         { name := "backend", ns := "default", kind := "Deployment", labels := [],
           ports := [{ name := "http", containerPort := 8080, protocol := "TCP" }] }]
        [] ["default"]).nodes.map (fun n => n.id)).Nodup := by
  constructor
  · decide
  · exact build_node_ids_nodup [] _ [] ["default"] (by decide) (by decide)
      (by decide) (by decide)

end Dnmap
